import Mathlib

/-!
Verification development for the flush engine, bind-setter pipeline and
background consumer of the `latolukasz/orm` object-relational mapper.

The Go source is shallowly embedded: Go `any` values that flow through the
bind pipeline become the inductive `GoVal`, machine integers become
`Nat`/`Int` with explicit bounds where the code checks them, Go maps that
are only read/updated by key become association lists, fallible functions
return `Except`-like sums, and panics become explicit result constructors.
Field names and function names follow the source wherever Lean allows.
-/

namespace Orm

/-- Go `time.Time`, reduced to the calendar/clock components that the
`2006-01-02` and `2006-01-02 15:04:05` layouts of this repository render,
plus the name of the `Location` (the source compares locations by their
`String()` name, `time.UTC.String() = "UTC"`). -/
structure GoTime where
  year : Nat
  month : Nat
  day : Nat
  hour : Nat
  minute : Nat
  second : Nat
  loc : String
deriving DecidableEq, Repr

/-- Go `any` values flowing through the bind pipeline.  All unsigned Go
integer widths (`uint8/16/32/64/uint`) are converted by the source through
`uint64(...)` by identical switch cases, so they are collapsed into
`vuint`; likewise all signed widths into `vint` and `float32/float64` into
`vfloat` (a rational, which is exact for every float).  Typed pointers keep
their `nil` case (`Option`).  Interface equality in Go distinguishes the
dynamic type, which the constructors preserve. -/
inductive GoVal where
  | vnil
  | vstr (s : String)
  | vuint (n : Nat)
  | vint (n : Int)
  | vbool (b : Bool)
  | vfloat (q : Rat)
  | vuintPtr (p : Option Nat)
  | vintPtr (p : Option Int)
  | vfloatPtr (p : Option Rat)
  | vboolPtr (p : Option Bool)
  | vtime (t : GoTime)
  | vtimePtr (p : Option GoTime)
deriving DecidableEq, Repr

/-- `BindError{Field, Message}` from the source. -/
structure BindError where
  Field : String
  Message : String
deriving DecidableEq, Repr

/-- The error taxonomy observed by the checked flushers: the two pattern
matched driver errors (`*ForeignKeyError`, `*DuplicatedKeyError`) and any
other recovered fault. -/
inductive GoErr where
  | foreignKeyError (message constraint : String)
  | duplicatedKeyError (message index : String)
  | fatalError (message : String)
deriving DecidableEq, Repr

/-! ## Flusher state (edit_entity_field.go, second document: `flusher`) -/

/-- The per-entity ORM state that `flusher.flush` reads and writes:
the `ID` field (`orm.idElem`), the row vector `orm.dBData`, and the
`loaded` / `inDB` flags. -/
structure FEntity where
  id : Nat
  dbData : List GoVal
  loaded : Bool
  inDB : Bool
deriving DecidableEq, Repr

/-- A `Bind` (`map[string]interface{}`), embedded as an association list. -/
abbrev GoBind := List (String × GoVal)

/-- Go map read `b[k]`: `nil` for a missing key. -/
def bindGet (b : GoBind) (k : String) : GoVal :=
  match b.find? (fun p => p.1 = k) with
  | some p => p.2
  | none => GoVal.vnil

/-- Go map lookup distinguishing a missing key from a stored value. -/
def bindFind (b : GoBind) (k : String) : Option GoVal :=
  (b.find? (fun p => p.1 = k)).map (fun p => p.2)

/-- Go map write `b[k] = v` (overwrites an existing key; Go maps are
unordered, so the association-list position carries no meaning). -/
def bindPut : GoBind → String → GoVal → GoBind
  | [], k, v => [(k, v)]
  | p :: rest, k, v => if p.1 = k then (k, v) :: rest else p :: bindPut rest k v

/-- `flusher.injectBind` (edit_entity_field.go:932): merge the bind into
`dBData` through `columnMapping` and raise `loaded` and `inDB`. -/
def injectBind (mapping : String → Nat) (bind : GoBind) (e : FEntity) : FEntity :=
  { e with
    dbData := bind.foldl (fun d p => d.set (mapping p.1) p.2) e.dbData
    loaded := true
    inDB := true }

/-- The id-assignment loop after a batched INSERT
(edit_entity_field.go:584-596): starting from the batch `LastInsertId`,
each entity is injected with its bind; an entity whose `ID` field is still
0 is stamped with the running id in both the `ID` field and `dBData[0]`,
and the running id advances by the pool autoincrement.  The cache calls of
the loop (`updateCacheForInserted`) do not touch entity state and are
omitted. -/
def insertEntitiesLoop (mapping : String → Nat) (autoincrement : Nat) :
    Nat → List (FEntity × GoBind) → List FEntity
  | _, [] => []
  | id, (e, bind) :: rest =>
    let e1 := injectBind mapping bind e
    if e1.id = 0 then
      let e2 := { e1 with id := id, dbData := e1.dbData.set 0 (GoVal.vuint id) }
      e2 :: insertEntitiesLoop mapping autoincrement (id + autoincrement) rest
    else
      e1 :: insertEntitiesLoop mapping autoincrement id rest

/-- The `flusher` struct fields that the modelled paths read or write.
`updateSQLs`, `deleteBinds`, `localCacheDeletes` and `localCacheSets` are
the four per-flush accumulators that the private `clear()` resets. -/
structure FFlusher where
  trackedEntities : List FEntity
  trackedEntitiesCounter : Nat
  updateSQLs : List String
  deleteBinds : List (Nat × FEntity)
  localCacheDeletes : List String
  localCacheSets : List String
deriving DecidableEq, Repr

/-- `flusher.clear` (edit_entity_field.go:1008-1013): resets only the four
per-flush accumulators — not the tracked entities nor the counter. -/
def clear (f : FFlusher) : FFlusher :=
  { f with updateSQLs := [], deleteBinds := [], localCacheDeletes := [], localCacheSets := [] }

/-- `flusher.Clear` (edit_entity_field.go:229-235): empties the tracked
set and the counter, then runs the private `clear()`. -/
def Clear (f : FFlusher) : FFlusher :=
  clear { f with trackedEntities := [], trackedEntitiesCounter := 0 }

/-- `flusher.flushTrackedEntities(lazy=false, transaction=false)`
(edit_entity_field.go:246-275) for the plain batched-INSERT scenario:
every tracked entity is new (not `inDB`, not marked to delete, its schema
has no references, no `onDuplicateKeyUpdate`, no caches, no log and no
dirty streams), so `flush` reduces to the compound INSERT and the
id-assignment loop.  The dirty binds produced per entity by
`orm.getDirtyBind()` (whose definition is not part of this repository
snapshot) are passed in as `binds`, one per tracked entity in order.
After the flush body the method calls the private `clear()`. -/
def flushTrackedEntities (mapping : String → Nat) (autoincrement lastInsertID : Nat)
    (binds : List GoBind) (f : FFlusher) : FFlusher :=
  if f.trackedEntitiesCounter = 0 then f
  else
    clear { f with
      trackedEntities :=
        insertEntitiesLoop mapping autoincrement lastInsertID (f.trackedEntities.zip binds) }

/-- `flusher.Track` (edit_entity_field.go:160-176): append each entity,
increment the counter, and panic with `track limit 10000 exceeded` the
moment the counter becomes 10001.  A panic is an `Except.error` carrying
the panic message. -/
def Track (f : FFlusher) : List FEntity → Except String FFlusher
  | [] => Except.ok f
  | e :: rest =>
    if f.trackedEntitiesCounter + 1 = 10001 then Except.error "track limit 10000 exceeded"
    else
      Track { f with
        trackedEntities := f.trackedEntities ++ [e]
        trackedEntitiesCounter := f.trackedEntitiesCounter + 1 } rest

/-- Outcome of a checked flush: normal return of `nil`, return of a
recovered error, or a re-panic. -/
inductive CheckOutcome where
  | ok
  | returned (e : GoErr)
  | panicked (e : GoErr)
deriving DecidableEq, Repr

/-- `flusher.flushWithCheck` (edit_entity_field.go:277-300).  The fault
raised (if any) by the underlying `flushTrackedEntities` run comes from
the DB driver and is an input here: on a fault the deferred recover runs
`f.Clear()` and then returns the error when it is a `*ForeignKeyError` or
a `*DuplicatedKeyError`, and re-panics it otherwise. -/
def flushWithCheck (mapping : String → Nat) (autoincrement lastInsertID : Nat)
    (binds : List GoBind) (f : FFlusher) (fault : Option GoErr) : FFlusher × CheckOutcome :=
  match fault with
  | none => (flushTrackedEntities mapping autoincrement lastInsertID binds f, CheckOutcome.ok)
  | some e =>
    let f1 := Clear f
    match e with
    | GoErr.foreignKeyError _ _ => (f1, CheckOutcome.returned e)
    | GoErr.duplicatedKeyError _ _ => (f1, CheckOutcome.returned e)
    | GoErr.fatalError _ => (f1, CheckOutcome.panicked e)

/-- `flusher.FlushWithFullCheck` (edit_entity_field.go:206-219): recovers
any fault, runs `f.Clear()`, and returns it. -/
def FlushWithFullCheck (mapping : String → Nat) (autoincrement lastInsertID : Nat)
    (binds : List GoBind) (f : FFlusher) (fault : Option GoErr) : FFlusher × CheckOutcome :=
  match fault with
  | none => (flushTrackedEntities mapping autoincrement lastInsertID binds f, CheckOutcome.ok)
  | some e => (Clear f, CheckOutcome.returned e)

/-! ## Background consumer: lazy envelope replay (unnamed/part_000) -/

/-- A row of the lazy envelope's `"d"` list: the serialised
`dirtyQueueValue` with its `"Event"` map and `"Streams"` list.  The
consumer's id rewriting writes only the `"I"` slot of the event map. -/
structure DirtyRow where
  event : GoBind
  streams : List String
deriving DecidableEq, Repr

/-- The loop of `BackgroundConsumer.handleQueries` over the envelope's
`"l"` list (unnamed/part_000:147-150): each row's `"ID"` slot is
overwritten with the running id, which then advances by the pool
autoincrement.  Returns the rewritten rows and the final running id. -/
def rewriteLogIDs (autoincrement : Nat) : Nat → List GoBind → List GoBind × Nat
  | id, [] => ([], id)
  | id, row :: rest =>
    let r := rewriteLogIDs autoincrement (id + autoincrement) rest
    (bindPut row "ID" (GoVal.vuint id) :: r.1, r.2)

/-- The loop of `BackgroundConsumer.handleQueries` over the envelope's
`"d"` list (unnamed/part_000:153-157): each row's `Event["I"]` slot is
overwritten with the running id, which then advances by the pool
autoincrement. -/
def rewriteDirtyIDs (autoincrement : Nat) : Nat → List DirtyRow → List DirtyRow × Nat
  | id, [] => ([], id)
  | id, row :: rest =>
    let r := rewriteDirtyIDs autoincrement (id + autoincrement) rest
    ({ row with event := bindPut row.event "I" (GoVal.vuint id) } :: r.1, r.2)

/-- Go string slice `s[0:n]` (this repository only slices ASCII SQL
strings, where bytes and characters coincide). -/
def goSlice (s : String) (n : Nat) : String :=
  String.mk (s.data.take n)

/-- The id rewriting performed by `BackgroundConsumer.handleQueries` for
one query entry (unnamed/part_000:142-158): when the entry's SQL starts
with `INSERT INTO` (the source reads `sql[0:11]`), the id starts at the
statement's `LastInsertId` and runs first through the whole `"l"` list and
then, WITHOUT resetting, through the `"d"` list. -/
def handleInsertIDRewrite (sql : String) (lastInsertID autoincrement : Nat)
    (ls : List GoBind) (ds : List DirtyRow) : List GoBind × List DirtyRow :=
  if goSlice sql 11 = "INSERT INTO" then
    let r1 := rewriteLogIDs autoincrement lastInsertID ls
    let r2 := rewriteDirtyIDs autoincrement r1.2 ds
    (r1.1, r2.1)
  else (ls, ds)

/-! ## Background consumer: search-indexer loop (unnamed/part_000:235-297) -/

/-- Result of `BackgroundConsumer.handleRedisIndexerEvent`'s inner loop:
either a normal break out of the loop (carrying the cursor at that point)
or a panic. -/
inductive IndexerLoopResult where
  | done (finalID : Nat)
  | panicked (msg : String)
deriving DecidableEq, Repr

/-- Whether the loop ended in the panic branch. -/
def IndexerLoopResult.isPanic : IndexerLoopResult → Bool
  | IndexerLoopResult.done _ => false
  | IndexerLoopResult.panicked _ => true

/-- The panic message of unnamed/part_000:293,
`errors.Errorf("loop detected in indxer for index %s in pool %s", ...)`. -/
def loopDetectedMsg (indexName redisPool : String) : String :=
  "loop detected in indxer for index " ++ indexName ++ " in pool " ++ redisPool

/-- The `for` loop of `BackgroundConsumer.handleRedisIndexerEvent`
(unnamed/part_000:264-296) with an explicit fuel bound (`none` = fuel
exhausted, never reached for indexers that eventually report no more
work).  Each iteration calls the indexer at the current cursor; when it
reports no more work the loop breaks; otherwise a next cursor less than
or equal to the current one panics with the loop-detected message, and a
strictly larger one becomes the cursor of the next iteration.  The redis
cursor-persistence and pipeline flushes do not affect the cursor and are
omitted. -/
def handleRedisIndexerLoop (indexName redisPool : String)
    (indexer : Nat → Nat × Bool) : Nat → Nat → Option IndexerLoopResult
  | 0, _ => none
  | fuel + 1, id =>
    let nextID := (indexer id).1
    let hasMore := (indexer id).2
    if hasMore then
      if nextID ≤ id then
        some (IndexerLoopResult.panicked (loopDetectedMsg indexName redisPool))
      else handleRedisIndexerLoop indexName redisPool indexer fuel nextID
    else some (IndexerLoopResult.done id)

/-! ## EditEntityField (edit_entity_field.go, first document) -/

/-- A `fieldBindSetter`, Go `func(any) (any, error)`: the pair of the
returned value and the returned error (the concrete setters return `nil`
as the value on error). -/
abbrev FieldBindSetter := GoVal → GoVal × Option BindError

/-- The entity as `editEntityField` sees it through reflection: the `ID`
field (`elem.Field(0).Uint()`) and the named struct fields
(`elem.FieldByName(...)`). -/
structure GoEntity where
  id : Nat
  fields : String → GoVal

/-- The `entitySchema` data read by `editEntityField` and
`addUniqueIndexFieldsToBind`: the per-field bind setters, field getters,
field setters and `GetUniqueIndexes()`. -/
structure EntitySchema where
  index : Nat
  fieldBindSetters : List (String × FieldBindSetter)
  fieldGetters : String → GoEntity → GoVal
  fieldSetters : String → GoVal → GoEntity → GoEntity
  uniqueIndexes : List (List String)

/-- Lookup `schema.fieldBindSetters[field]` with its `has` flag. -/
def lookupBindSetter (schema : EntitySchema) (field : String) : Option FieldBindSetter :=
  (schema.fieldBindSetters.find? (fun p => p.1 = field)).map (fun p => p.2)

/-- The `EntityFlush` values stored in the tracked-entities map: pending
field edits, an editable or insertable entity, or an entity marked to
delete (any other `EntityFlush` implementation). -/
inductive EntityFlushEntry where
  | editableFields (newBind oldBind : GoBind)
  | editableEntity (value : GoEntity)
  | insertableEntity (value : GoEntity)
  | deleteMarked

/-- New/old binds of an `editableFields` entry (`([], [])` otherwise). -/
def entryBinds : EntityFlushEntry → GoBind × GoBind
  | EntityFlushEntry.editableFields nb ob => (nb, ob)
  | _ => ([], [])

/-- The two-level tracked-entities map of the context,
`xsync.MapOf[schemaIndex, MapOf[entityID, EntityFlush]]`. -/
abbrev TrackedMap := List (Nat × List (Nat × EntityFlushEntry))

/-- Read `trackedEntities[schemaIndex][id]`. -/
def mapFind2 (m : TrackedMap) (si id : Nat) : Option EntityFlushEntry :=
  match m.find? (fun p => p.1 = si) with
  | some p => (p.2.find? (fun q => q.1 = id)).map (fun q => q.2)
  | none => none

/-- Write into the inner per-schema map. -/
def innerPut : List (Nat × EntityFlushEntry) → Nat → EntityFlushEntry →
    List (Nat × EntityFlushEntry)
  | [], id, e => [(id, e)]
  | p :: rest, id, e => if p.1 = id then (id, e) :: rest else p :: innerPut rest id e

/-- Write `trackedEntities[schemaIndex][id] = e`, creating the inner map
when needed (the `LoadOrCompute` calls of the source). -/
def mapPut2 : TrackedMap → Nat → Nat → EntityFlushEntry → TrackedMap
  | [], si, id, e => [(si, [(id, e)])]
  | p :: rest, si, id, e =>
    if p.1 = si then (si, innerPut p.2 id e) :: rest else p :: mapPut2 rest si id e

/-- Convenience: the binds stored for `(si, id)` (`([], [])` when absent
or not an `editableFields` entry); `.1` is the new bind, `.2` the old. -/
def trackedBindsAt (m : TrackedMap) (si id : Nat) : GoBind × GoBind :=
  match mapFind2 m si id with
  | some e => entryBinds e
  | none => ([], [])

/-- `addUniqueIndexFieldsToBind`'s inner loop over the columns of one
unique index that contains the edited field (edit_entity_field.go:89-96):
every column whose `oldBind` slot reads `nil` (missing or stored nil) gets
the canonicalised current field content written into BOTH `newBind` and
`oldBind`.  The error of the canonicalisation is discarded (`val, _ :=`).
A column without a registered bind setter would make the source panic on a
nil function call; such schemas cannot pass registry validation and the
model leaves the binds unchanged there. -/
def addIndexColumns (schema : EntitySchema) (elem : GoEntity)
    (cols : List String) (acc : GoBind × GoBind) : GoBind × GoBind :=
  cols.foldl (fun ob_nb col =>
    if bindGet ob_nb.1 col = GoVal.vnil then
      match lookupBindSetter schema col with
      | some setter =>
        let val := (setter (elem.fields col)).1
        (bindPut ob_nb.1 col val, bindPut ob_nb.2 col val)
      | none => ob_nb
    else ob_nb) acc

/-- `addUniqueIndexFieldsToBind` (edit_entity_field.go:84-101): for every
unique index of the schema that contains the edited field, add the other
columns of the index as above.  The pair is `(oldBind, newBind)`. -/
def addUniqueIndexFieldsToBind (schema : EntitySchema) (field : String)
    (oldBind newBind : GoBind) (elem : GoEntity) : GoBind × GoBind :=
  schema.uniqueIndexes.foldl (fun ob_nb indexColumns =>
    if field ∈ indexColumns then addIndexColumns schema elem indexColumns ob_nb
    else ob_nb) (oldBind, newBind)

/-- `editEntityField` (edit_entity_field.go:14-82).  Returns the updated
tracked-entities map of the context together with the returned error.
The mutex is irrelevant to the single-call semantics modelled here. -/
def editEntityField (schema : EntitySchema) (tracked : TrackedMap)
    (entity : GoEntity) (field : String) (value : GoVal) :
    TrackedMap × Option BindError :=
  match lookupBindSetter schema field with
  | none => (tracked, some (BindError.mk field "unknown field"))
  | some setter =>
    let newValue := (setter value).1
    match (setter value).2 with
    | some e => (tracked, some e)
    | none =>
      let v := schema.fieldGetters field entity
      let oldValue := (setter v).1
      let oldErr := (setter v).2
      if oldErr = none ∧ oldValue = newValue then (tracked, none)
      else
        match mapFind2 tracked schema.index entity.id with
        | none =>
          let ob_nb := addUniqueIndexFieldsToBind schema field
            [(field, oldValue)] [(field, newValue)] entity
          (mapPut2 tracked schema.index entity.id
            (EntityFlushEntry.editableFields ob_nb.2 ob_nb.1), none)
        | some (EntityFlushEntry.editableFields nb ob) =>
          let nb1 := bindPut nb field newValue
          let ob1 := bindPut ob field oldValue
          let ob_nb := addUniqueIndexFieldsToBind schema field ob1 nb1 entity
          (mapPut2 tracked schema.index entity.id
            (EntityFlushEntry.editableFields ob_nb.2 ob_nb.1), none)
        | some (EntityFlushEntry.editableEntity ent) =>
          (mapPut2 tracked schema.index entity.id
            (EntityFlushEntry.editableEntity (schema.fieldSetters field newValue ent)), none)
        | some (EntityFlushEntry.insertableEntity ent) =>
          (mapPut2 tracked schema.index entity.id
            (EntityFlushEntry.insertableEntity (schema.fieldSetters field newValue ent)), none)
        | some EntityFlushEntry.deleteMarked =>
          (tracked, some (BindError.mk field "setting field in entity marked to delete not allowed"))

/-- A bind setter that canonicalises every value to itself without error
(the shape of a string setter on in-range strings). -/
def idSetter : FieldBindSetter := fun v => (v, none)

/-- A required column's bind setter: `nil` is rejected with
`nil is not allowed`, everything else canonicalises to itself. -/
def nnSetter : FieldBindSetter := fun v =>
  match v with
  | GoVal.vnil => (GoVal.vnil, some (BindError.mk "Name" "nil is not allowed"))
  | w => (w, none)

/-- Concrete schema with a two-column unique index over `Email` and
`Age`. -/
def schema5 : EntitySchema where
  index := 0
  fieldBindSetters := [("Email", idSetter), ("Age", idSetter)]
  fieldGetters := fun f ent => ent.fields f
  fieldSetters := fun _ _ ent => ent
  uniqueIndexes := [["Email", "Age"]]

/-- Concrete entity with `Email = "a"` and `Age = 7`. -/
def entity5 : GoEntity where
  id := 3
  fields := fun f =>
    if f = "Email" then GoVal.vstr "a"
    else if f = "Age" then GoVal.vuint 7
    else GoVal.vnil

/-- Concrete entity with `Email` currently nil and `Age = 7` (its `Email`
content canonicalises, without error, to nil). -/
def entity5b : GoEntity where
  id := 8
  fields := fun f => if f = "Age" then GoVal.vuint 7 else GoVal.vnil

/-- Concrete schema with a single required `Name` column and no unique
indexes. -/
def schema10 : EntitySchema where
  index := 1
  fieldBindSetters := [("Name", nnSetter)]
  fieldGetters := fun f ent => ent.fields f
  fieldSetters := fun _ _ ent => ent
  uniqueIndexes := []

/-- Entity whose current `Name` content is the string `x`. -/
def entityA : GoEntity where
  id := 4
  fields := fun _ => GoVal.vstr "x"

/-- Entity whose current `Name` content is `nil` (so canonicalising the
current content fails on the required column). -/
def entityB : GoEntity where
  id := 5
  fields := fun _ => GoVal.vnil

/-! ## Number bind setter (unnamed/part_000:334-498,
`createNumberFieldBindSetter`) -/

/-- Decimal digit run, as `strconv` reads it (no sign, no underscores,
base 10); `none` when empty or a non-digit appears. -/
def parseDigitsAux : List Char → Nat → Option Nat
  | [], acc => some acc
  | c :: rest, acc =>
    if c.isDigit then parseDigitsAux rest (acc * 10 + (c.toNat - 48)) else none

/-- All-digit numeral value of a non-empty character list. -/
def parseDigits : List Char → Option Nat
  | [] => none
  | cs => parseDigitsAux cs 0

/-- Go `strconv.ParseUint(s, 10, 64)`: digits only, no sign permitted,
errors (`none`) when empty, malformed, or above `2^64 - 1`. -/
def parseUint64 (s : String) : Option Nat :=
  match parseDigits s.data with
  | some n => if n < 2 ^ 64 then some n else none
  | none => none

/-- Go `strconv.ParseInt(s, 10, 64)`: optional sign then digits, errors
(`none`) when empty, malformed, or outside the `int64` range. -/
def parseInt64 (s : String) : Option Int :=
  match s.data with
  | '+' :: rest =>
    (parseDigits rest).bind fun n =>
      if (n : Int) ≤ 2 ^ 63 - 1 then some (n : Int) else none
  | '-' :: rest =>
    (parseDigits rest).bind fun n =>
      if (n : Int) ≤ 2 ^ 63 then some (-(n : Int)) else none
  | cs =>
    (parseDigits cs).bind fun n =>
      if (n : Int) ≤ 2 ^ 63 - 1 then some (n : Int) else none

/-- Go conversion `int64(f)` for a float: truncation toward zero
(`Int.div` is T-division).  Floats outside the `int64` range are not
produced by the paths verified here. -/
def goTruncInt64 (q : Rat) : Int :=
  Int.tdiv q.num (q.den : Int)

/-- Go conversion `int64(u)` for a `uint64` value: two's-complement
wrap-around. -/
def wrapToInt64 (n : Nat) : Int :=
  if n % 2 ^ 64 < 2 ^ 63 then ((n % 2 ^ 64 : Nat) : Int)
  else ((n % 2 ^ 64 : Nat) : Int) - 2 ^ 64

/-- Go `fmt.Sprintf("%d", v)` for the values that can reach the setter's
error messages.  Integers render in decimal; a string renders as
`%!d(string=...)`.  For floats Go renders `%!d(float64=...)` and for
pointers the pointer address — no theorem below depends on those payload
renderings. -/
def goFormatD : GoVal → String
  | GoVal.vint n => toString n
  | GoVal.vuint n => toString n
  | GoVal.vstr s => "%!d(string=" ++ s ++ ")"
  | GoVal.vfloat q => "%!d(float64=" ++ toString q ++ ")"
  | _ => "%!d(value)"

/-- The exact float value −1/2 (given in lowest terms so that every
projection reduces). -/
def negHalf : Rat := Rat.mk' (-1) 2 (by decide) (by exact Nat.coprime_one_left 2)

/-- The exact float value −3. -/
def negThree : Rat := Rat.mk' (-3) 1 (by decide) (by exact Nat.coprime_one_right 3)

/-- Result of the type switch of `createNumberFieldBindSetter`
(unnamed/part_000:345-469): the accumulated `asUint64`/`asInt64` pair, a
nil typed pointer, or an early error. -/
inductive NumParse where
  | parsed (asUint64 : Nat) (asInt64 : Int)
  | parsedNil
  | failed (e : BindError)

/-- The type switch: strings parse by `strconv` (per the column
signedness), unsigned widths accumulate into `asUint64`, signed widths
and floats (truncated) into `asInt64`, nil typed pointers set `isNil`,
anything else is `invalid value`. -/
def numberSwitch (columnName : String) (unsigned : Bool) : GoVal → NumParse
  | GoVal.vstr s =>
    if unsigned then
      match parseUint64 s with
      | some n => NumParse.parsed n 0
      | none => NumParse.failed (BindError.mk columnName ("invalid number " ++ s))
    else
      match parseInt64 s with
      | some n => NumParse.parsed 0 n
      | none => NumParse.failed (BindError.mk columnName ("invalid number " ++ s))
  | GoVal.vuint n => NumParse.parsed n 0
  | GoVal.vuintPtr (some n) => NumParse.parsed n 0
  | GoVal.vuintPtr none => NumParse.parsedNil
  | GoVal.vint n => NumParse.parsed 0 n
  | GoVal.vintPtr (some n) => NumParse.parsed 0 n
  | GoVal.vintPtr none => NumParse.parsedNil
  | GoVal.vfloat q => NumParse.parsed 0 (goTruncInt64 q)
  | GoVal.vfloatPtr (some q) => NumParse.parsed 0 (goTruncInt64 q)
  | GoVal.vfloatPtr none => NumParse.parsedNil
  | GoVal.vnil => NumParse.parsedNil
  | _ => NumParse.failed (BindError.mk columnName "invalid value")

/-- `createNumberFieldBindSetter(columnName, unsigned, nullable, min,
max)` (unnamed/part_000:334-498).  The `GoVal.vnil` case is the `v == nil`
check that precedes the switch. -/
def createNumberFieldBindSetter (columnName : String) (unsigned nullable : Bool)
    (min : Int) (max : Nat) : FieldBindSetter := fun v =>
  match v with
  | GoVal.vnil =>
    if !nullable then (GoVal.vnil, some (BindError.mk columnName "nil is not allowed"))
    else (GoVal.vnil, none)
  | _ =>
    match numberSwitch columnName unsigned v with
    | NumParse.failed e => (GoVal.vnil, some e)
    | NumParse.parsedNil =>
      if !nullable then (GoVal.vnil, some (BindError.mk columnName "nil is not allowed"))
      else (GoVal.vnil, none)
    | NumParse.parsed asU asI =>
      if !unsigned then
        let asI1 := if asU > 0 then wrapToInt64 asU else asI
        if asI1 > 0 ∧ asI1.toNat > max then
          (GoVal.vnil, some (BindError.mk columnName
            ("value " ++ goFormatD v ++ " exceeded max allowed value")))
        else if asI1 < 0 ∧ asI1 < min then
          (GoVal.vnil, some (BindError.mk columnName
            ("value " ++ goFormatD v ++ " exceeded min allowed value")))
        else (GoVal.vint asI1, none)
      else
        if asI < 0 then
          (GoVal.vnil, some (BindError.mk columnName
            ("negative number " ++ goFormatD v ++ " not allowed")))
        else
          let asU1 := if asI > 0 then asI.toNat else asU
          if asU1 > max then
            (GoVal.vnil, some (BindError.mk columnName
              ("value " ++ goFormatD v ++ " exceeded max allowed value")))
          else (GoVal.vuint asU1, none)

/-! ## Date/DateTime bind setter and field setter
(unnamed/part_000:686-717 `createDateFieldBindSetter`,
unnamed/part_000:827-833 `createTimeFieldSetter`) -/

/-- The two fixed-width time layouts this repository configures for
date-like columns: `2006-01-02` and `2006-01-02 15:04:05`. -/
inductive TimeLayout where
  | dateOnly
  | dateTime
deriving DecidableEq, Repr

/-- Decimal digit character for `d < 10`. -/
def digitChar (d : Nat) : Char := Char.ofNat (48 + d)

/-- Two-digit zero-padded rendering (Go's fixed-width `01`, `02`, `15`,
`04`, `05` layout chunks) of `n < 100`. -/
def pad2 (n : Nat) : List Char := [digitChar (n / 10), digitChar (n % 10)]

/-- Four-digit zero-padded rendering (Go's `2006` layout chunk) of
`n < 10000`. -/
def pad4 (n : Nat) : List Char :=
  [digitChar (n / 1000), digitChar (n / 100 % 10), digitChar (n / 10 % 10), digitChar (n % 10)]

/-- `time.Time.Format` for the two layouts: the wall-clock components
rendered with fixed widths and the layout's separators. -/
def formatChars : TimeLayout → GoTime → List Char
  | TimeLayout.dateOnly, t =>
    pad4 t.year ++ '-' :: (pad2 t.month ++ '-' :: pad2 t.day)
  | TimeLayout.dateTime, t =>
    pad4 t.year ++ '-' :: (pad2 t.month ++ '-' :: (pad2 t.day ++ ' ' ::
      (pad2 t.hour ++ ':' :: (pad2 t.minute ++ ':' :: pad2 t.second))))

/-- `t.Format(layout)` as a string. -/
def goTimeFormat (layout : TimeLayout) (t : GoTime) : String :=
  String.mk (formatChars layout t)

/-- A decimal digit byte as Go's `getnum` reads it (`c < '0' || c > '9'`
fails). -/
def charDigit (c : Char) : Option Nat :=
  if 48 ≤ c.toNat ∧ c.toNat ≤ 57 then some (c.toNat - 48) else none

/-- Fixed two-digit number (Go's `getnum` with `fixed=true`). -/
def parse2 (c1 c2 : Char) : Option Nat :=
  match charDigit c1, charDigit c2 with
  | some d1, some d2 => some (d1 * 10 + d2)
  | _, _ => none

/-- Fixed four-digit number (Go's `stdLongYear`). -/
def parse4 (c1 c2 c3 c4 : Char) : Option Nat :=
  match charDigit c1, charDigit c2, charDigit c3, charDigit c4 with
  | some d1, some d2, some d3, some d4 =>
    some (d1 * 1000 + d2 * 100 + d3 * 10 + d4)
  | _, _, _, _ => none

/-- Gregorian leap-year rule used by Go's `isLeap`. -/
def isLeapYear (y : Nat) : Bool :=
  (y % 4 = 0 && y % 100 != 0) || y % 400 = 0

/-- Go's `daysIn(month, year)`. -/
def daysInMonth (y m : Nat) : Nat :=
  if m = 2 then (if isLeapYear y then 29 else 28)
  else if m = 4 ∨ m = 6 ∨ m = 9 ∨ m = 11 then 30
  else 31

/-- Go's `Date`/range validation at the end of `time.Parse`: month 1–12,
day 1–`daysIn`, hour < 24, minute < 60, second < 60; the accepted result
carries the UTC location (components not present in the layout stay 0,
for which the range checks hold trivially). -/
def checkClock (y mo d hr mi se : Nat) : Option GoTime :=
  if 1 ≤ mo ∧ mo ≤ 12 ∧ 1 ≤ d ∧ d ≤ daysInMonth y mo ∧ hr ≤ 23 ∧ mi ≤ 59 ∧ se ≤ 59 then
    some (GoTime.mk y mo d hr mi se "UTC")
  else none

/-- `time.ParseInLocation(layout, s, time.UTC)` for the two fixed-width
layouts: exactly the layout's shape (Go's fixed-width chunks take exactly
2 resp. 4 digits and reject shorter or longer input), the layout's
separators, then Go's range validation. -/
def parseInLocationChars : TimeLayout → List Char → Option GoTime
  | TimeLayout.dateOnly, [y1, y2, y3, y4, s1, m1, m2, s2, d1, d2] =>
    if s1 = '-' ∧ s2 = '-' then
      (parse4 y1 y2 y3 y4).bind fun y =>
        (parse2 m1 m2).bind fun mo =>
          (parse2 d1 d2).bind fun d => checkClock y mo d 0 0 0
    else none
  | TimeLayout.dateTime,
      [y1, y2, y3, y4, s1, m1, m2, s2, d1, d2, s3, h1, h2, s4, mi1, mi2, s5, se1, se2] =>
    if s1 = '-' ∧ s2 = '-' ∧ s3 = ' ' ∧ s4 = ':' ∧ s5 = ':' then
      (parse4 y1 y2 y3 y4).bind fun y =>
        (parse2 m1 m2).bind fun mo =>
          (parse2 d1 d2).bind fun d =>
            (parse2 h1 h2).bind fun hr =>
              (parse2 mi1 mi2).bind fun mi =>
                (parse2 se1 se2).bind fun se => checkClock y mo d hr mi se
    else none
  | _, _ => none

/-- `time.ParseInLocation` on a string. -/
def parseInLocation (layout : TimeLayout) (s : String) : Option GoTime :=
  parseInLocationChars layout s.data

/-- Result of `createDateFieldBindSetter`: the returned `(any, error)`
pair, or the nil-pointer-dereference panic of the `*time.Time` case on a
typed nil pointer. -/
inductive DateSetterResult where
  | ok (v : GoVal)
  | err (e : BindError)
  | nilPanic
deriving DecidableEq, Repr

/-- `createDateFieldBindSetter(columnName, layout, nullable)`
(unnamed/part_000:686-717): accepts `time.Time`, `*time.Time` and strings
in the layout; a time whose location NAME differs from `"UTC"`
(`t.Location().String() != time.UTC.String()`) is rejected; accepted
times are canonicalised to `t.Format(layout)`, accepted strings to the
re-formatted parse result. -/
def createDateFieldBindSetter (columnName : String) (layout : TimeLayout)
    (nullable : Bool) : GoVal → DateSetterResult := fun v =>
  match v with
  | GoVal.vnil =>
    if !nullable then DateSetterResult.err (BindError.mk columnName "nil is not allowed")
    else DateSetterResult.ok GoVal.vnil
  | GoVal.vtime t =>
    if t.loc ≠ "UTC" then
      DateSetterResult.err (BindError.mk columnName "time must be in UTC location")
    else DateSetterResult.ok (GoVal.vstr (goTimeFormat layout t))
  | GoVal.vtimePtr (some t) =>
    if t.loc ≠ "UTC" then
      DateSetterResult.err (BindError.mk columnName "time must be in UTC location")
    else DateSetterResult.ok (GoVal.vstr (goTimeFormat layout t))
  | GoVal.vtimePtr none => DateSetterResult.nilPanic
  | GoVal.vstr s =>
    match parseInLocation layout s with
    | some t => DateSetterResult.ok (GoVal.vstr (goTimeFormat layout t))
    | none => DateSetterResult.err (BindError.mk columnName ("invalid time " ++ s))
  | _ => DateSetterResult.err (BindError.mk columnName "invalid value")

/-- The zero `time.Time`: January 1, year 1, 00:00:00 UTC. -/
def zeroGoTime : GoTime := GoTime.mk 1 1 1 0 0 0 "UTC"

/-- `createTimeFieldSetter` (unnamed/part_000:827-833): parse the stored
string in the layout at UTC, ignoring the parse error (the zero time is
stored in that case), and write the result into the entity field. -/
def createTimeFieldSetter (layout : TimeLayout) (s : String) : GoTime :=
  match parseInLocation layout s with
  | some t => t
  | none => zeroGoTime

/-- The wall-clock component ranges of every real `time.Time` between the
years 0 and 9999 (`time.Time` normalises its components internally). -/
def validGoTime (t : GoTime) : Prop :=
  t.year ≤ 9999 ∧ 1 ≤ t.month ∧ t.month ≤ 12 ∧ 1 ≤ t.day ∧
    t.day ≤ daysInMonth t.year t.month ∧ t.hour ≤ 23 ∧ t.minute ≤ 59 ∧ t.second ≤ 59

instance (t : GoTime) : Decidable (validGoTime t) := by
  unfold validGoTime
  infer_instance

/-- The normalisation `FieldSetter(BindSetter(v))` realises: the same
wall-clock components re-read in UTC, with the time of day dropped by the
date-only layout. -/
def normalizeGoTime (layout : TimeLayout) (t : GoTime) : GoTime :=
  match layout with
  | TimeLayout.dateOnly => GoTime.mk t.year t.month t.day 0 0 0 "UTC"
  | TimeLayout.dateTime => GoTime.mk t.year t.month t.day t.hour t.minute t.second "UTC"

/-! ## Helper lemmas on binds -/

theorem bindFind_bindPut_self (b : GoBind) (k : String) (v : GoVal) :
    bindFind (bindPut b k v) k = some v := by
  induction b with
  | nil => simp [bindFind, bindPut]
  | cons p rest ih =>
    by_cases h : p.1 = k
    · simp [bindFind, bindPut, h]
    · simp only [bindPut, if_neg h]
      simpa [bindFind, List.find?_cons, h] using ih

theorem bindFind_bindPut_ne (b : GoBind) (k k' : String) (v : GoVal) (h : k' ≠ k) :
    bindFind (bindPut b k v) k' = bindFind b k' := by
  have hne : ¬ k = k' := fun hc => h (Eq.symm hc)
  induction b with
  | nil => simp [bindFind, bindPut, hne]
  | cons p rest ih =>
    by_cases hp : p.1 = k
    · simp [bindFind, bindPut, List.find?_cons, hp, hne]
    · simp only [bindPut, if_neg hp]
      by_cases hp' : p.1 = k'
      · simp [bindFind, List.find?_cons, hp']
      · simpa [bindFind, List.find?_cons, hp'] using ih

/-! ## Helper lemmas on the envelope id rewriting -/

theorem rewriteLogIDs_snd (A id : Nat) (rows : List GoBind) :
    (rewriteLogIDs A id rows).2 = id + rows.length * A := by
  induction rows generalizing id with
  | nil => simp [rewriteLogIDs]
  | cons row rest ih =>
    simp only [rewriteLogIDs, ih, List.length_cons, Nat.succ_mul]
    ring

theorem rewriteLogIDs_get (A id : Nat) (rows : List GoBind) :
    ∀ k, k < rows.length → ∃ row, (rewriteLogIDs A id rows).1[k]? = some row ∧
      bindFind row "ID" = some (GoVal.vuint (id + k * A)) := by
  induction rows generalizing id with
  | nil => intro k hk; simp at hk
  | cons row rest ih =>
    intro k hk
    match k with
    | 0 =>
      exact ⟨bindPut row "ID" (GoVal.vuint id), by simp [rewriteLogIDs],
        by simpa using bindFind_bindPut_self row "ID" (GoVal.vuint id)⟩
    | Nat.succ k =>
      have hk' : k < rest.length := by simpa using hk
      obtain ⟨r, hget, hid⟩ := ih (id + A) k hk'
      refine ⟨r, by simpa [rewriteLogIDs] using hget, ?_⟩
      rw [hid]; congr 2; rw [Nat.succ_mul]; ring

theorem rewriteDirtyIDs_get (A id : Nat) (rows : List DirtyRow) :
    ∀ k, k < rows.length → ∃ row, (rewriteDirtyIDs A id rows).1[k]? = some row ∧
      bindFind row.event "I" = some (GoVal.vuint (id + k * A)) := by
  induction rows generalizing id with
  | nil => intro k hk; simp at hk
  | cons row rest ih =>
    intro k hk
    match k with
    | 0 =>
      exact ⟨{ row with event := bindPut row.event "I" (GoVal.vuint id) },
        by simp [rewriteDirtyIDs],
        by simpa using bindFind_bindPut_self row.event "I" (GoVal.vuint id)⟩
    | Nat.succ k =>
      have hk' : k < rest.length := by simpa using hk
      obtain ⟨r, hget, hid⟩ := ih (id + A) k hk'
      refine ⟨r, by simpa [rewriteDirtyIDs] using hget, ?_⟩
      rw [hid]; congr 2; rw [Nat.succ_mul]; ring

/-! ## C2 — id rewriting of the lazy envelope at replay -/

/-- C2 counterexample: replaying an insert entry with `LastInsertId 5`,
autoincrement 1, one `"l"` record and one `"d"` record gives the `"d"`
record id 6, not 5: the running id continues past the `"l"` list instead
of restarting at `LastInsertId` for each list. -/
theorem handleQueries_dirty_numbering_counterexample :
    ((handleInsertIDRewrite "INSERT INTO t(a) VALUES (?)" 5 1
        [[("ID", GoVal.vuint 0)]] [DirtyRow.mk [("I", GoVal.vuint 0)] ["s1"]]).2.map
      (fun r => bindFind r.event "I")) = [some (GoVal.vuint 6)] ∧
    ¬ ((handleInsertIDRewrite "INSERT INTO t(a) VALUES (?)" 5 1
        [[("ID", GoVal.vuint 0)]] [DirtyRow.mk [("I", GoVal.vuint 0)] ["s1"]]).2.map
      (fun r => bindFind r.event "I")) = [some (GoVal.vuint 5)] := by
  constructor <;> decide

/-- C2 amended: for a query entry whose SQL starts with `INSERT INTO`,
with `LastInsertId L` and autoincrement `A`, the consumer overwrites the
k-th `"l"` record with id `L + k·A`, and the running id continues into the
`"d"` list, whose k-th record receives `L + (|l| + k)·A`. -/
theorem handleQueries_insert_id_rewrite (sql : String) (L A : Nat)
    (ls : List GoBind) (ds : List DirtyRow)
    (hsql : goSlice sql 11 = "INSERT INTO") :
    (∀ k, k < ls.length →
      ∃ row, (handleInsertIDRewrite sql L A ls ds).1[k]? = some row ∧
        bindFind row "ID" = some (GoVal.vuint (L + k * A))) ∧
    (∀ k, k < ds.length →
      ∃ row, (handleInsertIDRewrite sql L A ls ds).2[k]? = some row ∧
        bindFind row.event "I" = some (GoVal.vuint (L + (ls.length + k) * A))) := by
  unfold handleInsertIDRewrite
  rw [if_pos hsql]
  constructor
  · intro k hk
    exact rewriteLogIDs_get A L ls k hk
  · intro k hk
    obtain ⟨r, hget, hid⟩ :=
      rewriteDirtyIDs_get A ((rewriteLogIDs A L ls).2) ds k hk
    refine ⟨r, hget, ?_⟩
    rw [hid, rewriteLogIDs_snd]
    congr 2
    rw [Nat.add_mul]
    ring

/-- Witness for the amended C2 at a concrete envelope with one `"l"` and
one `"d"` record, `L = 5`, `A = 1`. -/
theorem handleQueries_insert_id_rewrite_witness :
    (∀ k, k < ([[("ID", GoVal.vuint 0)]] : List GoBind).length →
      ∃ row, (handleInsertIDRewrite "INSERT INTO t(a) VALUES (?)" 5 1
          [[("ID", GoVal.vuint 0)]] [DirtyRow.mk [("I", GoVal.vuint 0)] ["s1"]]).1[k]?
            = some row ∧
        bindFind row "ID" = some (GoVal.vuint (5 + k * 1))) ∧
    (∀ k, k < ([DirtyRow.mk [("I", GoVal.vuint 0)] ["s1"]] : List DirtyRow).length →
      ∃ row, (handleInsertIDRewrite "INSERT INTO t(a) VALUES (?)" 5 1
          [[("ID", GoVal.vuint 0)]] [DirtyRow.mk [("I", GoVal.vuint 0)] ["s1"]]).2[k]?
            = some row ∧
        bindFind row.event "I" = some (GoVal.vuint (5 + (1 + k) * 1))) :=
  handleQueries_insert_id_rewrite "INSERT INTO t(a) VALUES (?)" 5 1
    [[("ID", GoVal.vuint 0)]] [DirtyRow.mk [("I", GoVal.vuint 0)] ["s1"]] (by decide)

/-! ## C8 — search-indexer loop progress and termination -/

/-- Helper: if the indexer reports no more work from some cursor `N`
onwards, the loop exits (break or panic) within `fuel` iterations whenever
`N < id + fuel` and there is at least one unit of fuel. -/
theorem indexerLoop_terminates (indexName redisPool : String)
    (indexer : Nat → Nat × Bool) (N : Nat)
    (hdone : ∀ j, N ≤ j → (indexer j).2 = false) :
    ∀ fuel id, N + 1 ≤ id + fuel → 1 ≤ fuel →
      handleRedisIndexerLoop indexName redisPool indexer fuel id ≠ none := by
  intro fuel
  induction fuel with
  | zero => intro id _ h1; omega
  | succ fuel ih =>
    intro id hbound _
    by_cases hb : (indexer id).2 = true
    · have hidN : id < N := by
        by_contra hge
        rw [hdone id (by omega)] at hb
        exact Bool.false_ne_true hb
      by_cases hle : (indexer id).1 ≤ id
      · simp [handleRedisIndexerLoop, hb, hle]
      · have hlt : id < (indexer id).1 := Nat.lt_of_not_le hle
        have hstep : handleRedisIndexerLoop indexName redisPool indexer (fuel + 1) id
            = handleRedisIndexerLoop indexName redisPool indexer fuel (indexer id).1 := by
          simp [handleRedisIndexerLoop, hb, hle]
        rw [hstep]
        exact ih (indexer id).1 (by omega) (by omega)
    · have hb' : (indexer id).2 = false := by
        cases h : (indexer id).2
        · rfl
        · exact absurd h hb
      simp [handleRedisIndexerLoop, hb']

/-- C8 counterexample: an indexer that answers `(0, hasMore=false)` at
cursor 5 returns `nextID = 0 ≤ 5`, yet the loop breaks normally instead of
panicking — the panic fires only when `hasMore` is true. -/
theorem indexerLoop_no_panic_counterexample :
    handleRedisIndexerLoop "idx" "pool" (fun _ => (0, false)) 1 5
        = some (IndexerLoopResult.done 5) ∧
    ((fun _ => ((0 : Nat), false)) 5).1 ≤ 5 ∧
    (handleRedisIndexerLoop "idx" "pool" (fun _ => (0, false)) 1 5).map
        IndexerLoopResult.isPanic = some false := by
  refine ⟨rfl, by decide, rfl⟩

/-- C8 amended: whenever the indexer reports more work (`hasMore = true`)
together with a next cursor `nextID ≤ id`, the loop panics with the
loop-detected message; on every iteration that continues the loop the
cursor strictly increases (the next iteration runs at the strictly larger
`nextID`); and for any indexer that reports no more work from some cursor
`N` on, the loop exits given enough fuel. -/
theorem indexerLoop_progress (indexName redisPool : String)
    (indexer : Nat → Nat × Bool) :
    (∀ fuel id, (indexer id).2 = true → (indexer id).1 ≤ id →
      handleRedisIndexerLoop indexName redisPool indexer (fuel + 1) id
        = some (IndexerLoopResult.panicked (loopDetectedMsg indexName redisPool))) ∧
    (∀ fuel id, (indexer id).2 = true → id < (indexer id).1 →
      handleRedisIndexerLoop indexName redisPool indexer (fuel + 1) id
        = handleRedisIndexerLoop indexName redisPool indexer fuel (indexer id).1) ∧
    (∀ N, (∀ j, N ≤ j → (indexer j).2 = false) →
      ∀ fuel id, N + 1 ≤ id + fuel → 1 ≤ fuel →
        handleRedisIndexerLoop indexName redisPool indexer fuel id ≠ none) := by
  refine ⟨?_, ?_, ?_⟩
  · intro fuel id hb hle
    simp [handleRedisIndexerLoop, hb, hle]
  · intro fuel id hb hlt
    simp [handleRedisIndexerLoop, hb, Nat.not_le.mpr hlt]
  · intro N hdone
    exact indexerLoop_terminates indexName redisPool indexer N hdone

/-- Witness for the amended C8: a concrete looping indexer panics, and a
concrete indexer that finishes at cursor 3 exits the loop with fuel 4. -/
theorem indexerLoop_progress_witness :
    handleRedisIndexerLoop "idx" "pool" (fun _ => (2, true)) 1 5
        = some (IndexerLoopResult.panicked (loopDetectedMsg "idx" "pool")) ∧
    handleRedisIndexerLoop "idx" "pool" (fun j => (j + 1, decide (j < 3))) 4 0 ≠ none := by
  constructor
  · exact (indexerLoop_progress "idx" "pool" (fun _ => (2, true))).1 0 5 rfl (by decide)
  · exact (indexerLoop_progress "idx" "pool" (fun j => (j + 1, decide (j < 3)))).2.2 3
      (fun j hj => by simp [Nat.not_lt.mpr hj]) 4 0 (by decide) (by decide)

/-! ## Helper lemmas on the flusher model -/

theorem injectBind_dbData_length (mapping : String → Nat) (bind : GoBind) (e : FEntity) :
    (injectBind mapping bind e).dbData.length = e.dbData.length := by
  show (bind.foldl (fun d p => d.set (mapping p.1) p.2) e.dbData).length = e.dbData.length
  induction bind generalizing e with
  | nil => rfl
  | cons p rest ih =>
    simpa [List.foldl_cons] using
      (ih { e with dbData := e.dbData.set (mapping p.1) p.2 }).trans (List.length_set ..)

theorem head?_set_zero (l : List GoVal) (v : GoVal) (h : l ≠ []) :
    (l.set 0 v).head? = some v := by
  cases l with
  | nil => exact absurd rfl h
  | cons a rest => rfl

theorem insertEntitiesLoop_length (mapping : String → Nat) (A : Nat) (id : Nat)
    (xs : List (FEntity × GoBind)) :
    (insertEntitiesLoop mapping A id xs).length = xs.length := by
  induction xs generalizing id with
  | nil => rfl
  | cons p rest ih =>
    obtain ⟨e, bind⟩ := p
    by_cases h : (injectBind mapping bind e).id = 0 <;>
      simp [insertEntitiesLoop, h, ih]

/-! ## C1 — id assignment after a batched INSERT -/

/-- C1: for a non-lazy batched INSERT of new entities (every `ID` field
still 0), with the DB returning `LastInsertId L` and pool autoincrement
`A`, the k-th entity of the batch in insertion order receives id
`L + k·A`, stamped both into its `ID` field and into `dBData[0]`, and its
`loaded` and `inDB` flags are raised. -/
theorem batchInsert_id_assignment (mapping : String → Nat) (A L : Nat)
    (xs : List (FEntity × GoBind))
    (hnew : ∀ p ∈ xs, p.1.id = 0) (hne : ∀ p ∈ xs, p.1.dbData ≠ []) :
    ∀ k, k < xs.length →
      ∃ e, (insertEntitiesLoop mapping A L xs)[k]? = some e ∧
        e.id = L + k * A ∧
        e.dbData.head? = some (GoVal.vuint (L + k * A)) ∧
        e.loaded = true ∧ e.inDB = true := by
  induction xs generalizing L with
  | nil => intro k hk; simp at hk
  | cons p rest ih =>
    obtain ⟨e, bind⟩ := p
    intro k hk
    have he0 : e.id = 0 := hnew (e, bind) (List.mem_cons_self _ _)
    have hd0 : e.dbData ≠ [] := hne (e, bind) (List.mem_cons_self _ _)
    have hinj : (injectBind mapping bind e).id = 0 := he0
    have hlen : (injectBind mapping bind e).dbData ≠ [] := by
      intro hcon
      apply hd0
      have := injectBind_dbData_length mapping bind e
      rw [hcon] at this
      exact List.length_eq_zero.mp this.symm
    rw [show insertEntitiesLoop mapping A L ((e, bind) :: rest)
        = ({ injectBind mapping bind e with
              id := L, dbData := (injectBind mapping bind e).dbData.set 0 (GoVal.vuint L) }
            :: insertEntitiesLoop mapping A (L + A) rest) from by
      simp [insertEntitiesLoop, hinj]]
    match k with
    | 0 =>
      refine ⟨{ injectBind mapping bind e with
          id := L, dbData := (injectBind mapping bind e).dbData.set 0 (GoVal.vuint L) },
        ?_, ?_, ?_, rfl, rfl⟩
      · simp
      · simp
      · simpa using head?_set_zero _ (GoVal.vuint L) hlen
    | Nat.succ k =>
      have hk' : k < rest.length := by simpa [List.length_cons] using hk
      obtain ⟨e', hget, hid, hhead, hl, hin⟩ :=
        ih (L + A) (fun q hq => hnew q (List.mem_cons_of_mem _ hq))
          (fun q hq => hne q (List.mem_cons_of_mem _ hq)) k hk'
      refine ⟨e', by simpa using hget, ?_, ?_, hl, hin⟩
      · rw [hid, Nat.succ_mul]; ring
      · rw [hhead]; congr 2; rw [Nat.succ_mul]; ring

/-- Witness for C1 at a concrete batch of two new entities with `L = 5`
and autoincrement `A = 2`. -/
theorem batchInsert_id_assignment_witness :
    ∃ e, (insertEntitiesLoop (fun _ => 1) 2 5
        [(⟨0, [GoVal.vnil, GoVal.vnil], false, false⟩, [("Name", GoVal.vstr "a")]),
         (⟨0, [GoVal.vnil, GoVal.vnil], false, false⟩, [("Name", GoVal.vstr "b")])])[1]? = some e ∧
      e.id = 5 + 1 * 2 ∧
      e.dbData.head? = some (GoVal.vuint (5 + 1 * 2)) ∧
      e.loaded = true ∧ e.inDB = true :=
  batchInsert_id_assignment (fun _ => 1) 2 5 _ (by decide) (by decide) 1 (by decide)

/-! ## C9 — Track hard cap of 10,000 entities -/

/-- C9: starting from a counter of at most 10,000, tracking a further
batch succeeds (appending the entities and adding their number to the
counter) exactly when the cumulative counter stays at or below 10,000,
and panics with the track-limit error exactly when some call pushes the
cumulative counter to 10,001. -/
theorem Track_limit (f : FFlusher) (es : List FEntity)
    (h : f.trackedEntitiesCounter ≤ 10000) :
    (f.trackedEntitiesCounter + es.length ≤ 10000 →
      Track f es = Except.ok { f with
        trackedEntities := f.trackedEntities ++ es
        trackedEntitiesCounter := f.trackedEntitiesCounter + es.length }) ∧
    (10000 < f.trackedEntitiesCounter + es.length →
      Track f es = Except.error "track limit 10000 exceeded") := by
  induction es generalizing f with
  | nil =>
    refine ⟨fun _ => ?_, fun hgt => ?_⟩
    · simp [Track]
    · simp only [List.length_nil, Nat.add_zero] at hgt
      omega
  | cons e rest ih =>
    by_cases hcap : f.trackedEntitiesCounter + 1 = 10001
    · refine ⟨fun hle => ?_, fun _ => ?_⟩
      · exfalso
        simp only [List.length_cons] at hle
        omega
      · simp [Track, hcap]
    · have h1 : f.trackedEntitiesCounter + 1 ≤ 10000 := by omega
      have step := ih { f with
        trackedEntities := f.trackedEntities ++ [e]
        trackedEntitiesCounter := f.trackedEntitiesCounter + 1 } h1
      refine ⟨fun hle => ?_, fun hgt => ?_⟩
      · have hle' : f.trackedEntitiesCounter + 1 + rest.length ≤ 10000 := by
          simp only [List.length_cons] at hle
          omega
        have := step.1 hle'
        simp only [Track, hcap, if_false] at *
        rw [this]
        congr 1
        simp [List.append_assoc]
        omega
      · have hgt' : 10000 < f.trackedEntitiesCounter + 1 + rest.length := by
          simp only [List.length_cons] at hgt
          omega
        have := step.2 hgt'
        simp only [Track, hcap, if_false]
        exact this

/-! ## C3 — checked flushers and the recoverable error kinds -/

/-- C3: when the underlying flush faults, `flushWithCheck` clears the
tracked-entity set and returns the error when it is a `*ForeignKeyError`
or a `*DuplicatedKeyError`, and re-panics any other fault; only
`FlushWithFullCheck` recovers an arbitrary fault, clears tracked state,
and returns it.  `Clear` leaves an empty tracked set and a zero counter. -/
theorem flushWithCheck_error_classification (mapping : String → Nat)
    (A L : Nat) (binds : List GoBind) (f : FFlusher) :
    (∀ m c, flushWithCheck mapping A L binds f (some (GoErr.foreignKeyError m c))
        = (Clear f, CheckOutcome.returned (GoErr.foreignKeyError m c))) ∧
    (∀ m i, flushWithCheck mapping A L binds f (some (GoErr.duplicatedKeyError m i))
        = (Clear f, CheckOutcome.returned (GoErr.duplicatedKeyError m i))) ∧
    (∀ m, flushWithCheck mapping A L binds f (some (GoErr.fatalError m))
        = (Clear f, CheckOutcome.panicked (GoErr.fatalError m))) ∧
    (∀ e, FlushWithFullCheck mapping A L binds f (some e)
        = (Clear f, CheckOutcome.returned e)) ∧
    (Clear f).trackedEntities = [] ∧ (Clear f).trackedEntitiesCounter = 0 :=
  ⟨fun _ _ => rfl, fun _ _ => rfl, fun _ => rfl, fun _ => rfl, rfl, rfl⟩

/-! ## C4 — the tracked set after a successful Flush -/

/-- C4 counterexample: a successful `Flush` of one tracked new entity
leaves the tracked-entity list and counter NON-empty, because
`flushTrackedEntities` finishes with the private `clear()`, which resets
only the four per-flush accumulators. -/
theorem flushTracked_keeps_tracked_set_counterexample :
    (flushTrackedEntities (fun _ => 1) 1 1 [[("Name", GoVal.vstr "a")]]
        ⟨[⟨0, [GoVal.vnil, GoVal.vnil], false, false⟩], 1, ["UPDATE x"], [],
          ["k1"], ["k2"]⟩).trackedEntitiesCounter ≠ 0 ∧
    (flushTrackedEntities (fun _ => 1) 1 1 [[("Name", GoVal.vstr "a")]]
        ⟨[⟨0, [GoVal.vnil, GoVal.vnil], false, false⟩], 1, ["UPDATE x"], [],
          ["k1"], ["k2"]⟩).trackedEntities ≠ [] := by
  constructor <;> decide

/-- C4 amended: a successful `Flush` with a non-empty tracked set clears
only the per-flush accumulators (`updateSQLs`, `deleteBinds`,
`localCacheDeletes`, `localCacheSets`); the tracked-entity list keeps its
length and the counter its value, so a second flush does not observe an
empty tracked set.  Only `Clear` empties the list and the counter. -/
theorem flushTracked_clears_accumulators_only (mapping : String → Nat)
    (A L : Nat) (binds : List GoBind) (f : FFlusher)
    (h : f.trackedEntitiesCounter ≠ 0)
    (hlen : binds.length = f.trackedEntities.length) :
    (flushTrackedEntities mapping A L binds f).trackedEntitiesCounter
        = f.trackedEntitiesCounter ∧
    (flushTrackedEntities mapping A L binds f).trackedEntities.length
        = f.trackedEntities.length ∧
    (flushTrackedEntities mapping A L binds f).updateSQLs = [] ∧
    (flushTrackedEntities mapping A L binds f).deleteBinds = [] ∧
    (flushTrackedEntities mapping A L binds f).localCacheDeletes = [] ∧
    (flushTrackedEntities mapping A L binds f).localCacheSets = [] ∧
    (Clear f).trackedEntities = [] ∧ (Clear f).trackedEntitiesCounter = 0 := by
  refine ⟨?_, ?_, ?_, ?_, ?_, ?_, rfl, rfl⟩ <;>
    simp [flushTrackedEntities, h, clear, insertEntitiesLoop_length,
      List.length_zip, hlen]

/-- Witness for the amended C4 at a concrete one-entity flusher. -/
theorem flushTracked_clears_accumulators_only_witness :
    (flushTrackedEntities (fun _ => 1) 1 1 [[("Name", GoVal.vstr "a")]]
        ⟨[⟨0, [GoVal.vnil, GoVal.vnil], false, false⟩], 1, ["UPDATE y"], [],
          ["k1"], ["k2"]⟩).trackedEntitiesCounter = 1 ∧
    (flushTrackedEntities (fun _ => 1) 1 1 [[("Name", GoVal.vstr "a")]]
        ⟨[⟨0, [GoVal.vnil, GoVal.vnil], false, false⟩], 1, ["UPDATE y"], [],
          ["k1"], ["k2"]⟩).trackedEntities.length = 1 ∧
    (flushTrackedEntities (fun _ => 1) 1 1 [[("Name", GoVal.vstr "a")]]
        ⟨[⟨0, [GoVal.vnil, GoVal.vnil], false, false⟩], 1, ["UPDATE y"], [],
          ["k1"], ["k2"]⟩).updateSQLs = [] := by
  have h := flushTracked_clears_accumulators_only (fun _ => 1) 1 1
    [[("Name", GoVal.vstr "a")]]
    ⟨[⟨0, [GoVal.vnil, GoVal.vnil], false, false⟩], 1, ["UPDATE y"], [],
      ["k1"], ["k2"]⟩ (by decide) (by decide)
  exact ⟨h.1, h.2.1, h.2.2.1⟩

/-- Witness for C9: at a counter of exactly 10,000 the next tracked entity
panics, while at a counter of 0 a single entity is tracked without panic. -/
theorem Track_limit_witness :
    Track ⟨[], 10000, [], [], [], []⟩ [⟨0, [], false, false⟩]
        = Except.error "track limit 10000 exceeded" ∧
    Track ⟨[], 0, [], [], [], []⟩ [⟨0, [], false, false⟩]
        = Except.ok ⟨[⟨0, [], false, false⟩], 1, [], [], [], []⟩ := by
  constructor
  · exact (Track_limit ⟨[], 10000, [], [], [], []⟩ [⟨0, [], false, false⟩]
      (by decide)).2 (by decide)
  · exact (Track_limit ⟨[], 0, [], [], [], []⟩ [⟨0, [], false, false⟩]
      (by decide)).1 (by decide)

/-! ## Helper lemmas on the tracked-entities map and the unique-index
companion columns -/

theorem bindGet_eq (b : GoBind) (k : String) :
    bindGet b k = (bindFind b k).getD GoVal.vnil := by
  unfold bindGet bindFind
  cases b.find? (fun p => p.1 = k) <;> rfl

theorem innerPut_find (l : List (Nat × EntityFlushEntry)) (id : Nat)
    (e : EntityFlushEntry) :
    ((innerPut l id e).find? (fun q => q.1 = id)).map (fun q => q.2) = some e := by
  induction l with
  | nil => simp [innerPut]
  | cons p rest ih =>
    by_cases hp : p.1 = id
    · simp [innerPut, hp]
    · simpa [innerPut, hp, List.find?_cons] using ih

theorem mapFind2_mapPut2 (m : TrackedMap) (si id : Nat) (e : EntityFlushEntry) :
    mapFind2 (mapPut2 m si id e) si id = some e := by
  induction m with
  | nil => simp [mapPut2, mapFind2, innerPut_find]
  | cons p rest ih =>
    by_cases hp : p.1 = si
    · simp [mapPut2, hp, mapFind2, innerPut_find]
    · simpa [mapPut2, hp, mapFind2, List.find?_cons] using ih

theorem addIndexColumns_field_slots (schema : EntitySchema) (elem : GoEntity)
    (field : String) (nv ov : GoVal) (hov : ov ≠ GoVal.vnil) :
    ∀ (cols : List String) (ob nb : GoBind),
      bindFind ob field = some ov → bindFind nb field = some nv →
      bindFind (addIndexColumns schema elem cols (ob, nb)).1 field = some ov ∧
      bindFind (addIndexColumns schema elem cols (ob, nb)).2 field = some nv := by
  intro cols
  induction cols with
  | nil => intro ob nb h1 h2; exact ⟨h1, h2⟩
  | cons c rest ih =>
    intro ob nb h1 h2
    have hstep : addIndexColumns schema elem (c :: rest) (ob, nb)
        = addIndexColumns schema elem rest
          (if bindGet ob c = GoVal.vnil then
            match lookupBindSetter schema c with
            | some setter =>
              (bindPut ob c ((setter (elem.fields c)).1),
               bindPut nb c ((setter (elem.fields c)).1))
            | none => (ob, nb)
          else (ob, nb)) := by
      simp only [addIndexColumns, List.foldl_cons]
    by_cases hc : bindGet ob c = GoVal.vnil
    · have hcf : field ≠ c := by
        intro hcon
        rw [← hcon, bindGet_eq, h1] at hc
        exact hov hc
      rw [hstep, if_pos hc]
      cases hs : lookupBindSetter schema c with
      | none => exact ih ob nb h1 h2
      | some setter =>
        refine ih _ _ ?_ ?_
        · rw [bindFind_bindPut_ne _ _ _ _ hcf, h1]
        · rw [bindFind_bindPut_ne _ _ _ _ hcf, h2]
    · rw [hstep, if_neg hc]
      exact ih ob nb h1 h2

theorem addIndexColumns_other_keys (schema : EntitySchema) (elem : GoEntity)
    (field : String) :
    ∀ (cols : List String) (ob nb : GoBind),
      (∀ K, K ≠ field → bindFind nb K = bindFind ob K) →
      ∀ K, K ≠ field →
        bindFind (addIndexColumns schema elem cols (ob, nb)).2 K
          = bindFind (addIndexColumns schema elem cols (ob, nb)).1 K := by
  intro cols
  induction cols with
  | nil => intro ob nb h K hK; exact h K hK
  | cons c rest ih =>
    intro ob nb h K hK
    have hstep : addIndexColumns schema elem (c :: rest) (ob, nb)
        = addIndexColumns schema elem rest
          (if bindGet ob c = GoVal.vnil then
            match lookupBindSetter schema c with
            | some setter =>
              (bindPut ob c ((setter (elem.fields c)).1),
               bindPut nb c ((setter (elem.fields c)).1))
            | none => (ob, nb)
          else (ob, nb)) := by
      simp only [addIndexColumns, List.foldl_cons]
    by_cases hc : bindGet ob c = GoVal.vnil
    · rw [hstep, if_pos hc]
      cases hs : lookupBindSetter schema c with
      | none => exact ih ob nb h K hK
      | some setter =>
        refine ih _ _ ?_ K hK
        intro K' hK'
        by_cases hKc : K' = c
        · subst hKc
          rw [bindFind_bindPut_self, bindFind_bindPut_self]
        · rw [bindFind_bindPut_ne _ _ _ _ hKc, bindFind_bindPut_ne _ _ _ _ hKc]
          exact h K' hK'
    · rw [hstep, if_neg hc]
      exact ih ob nb h K hK

theorem addUnique_field_slots (schema : EntitySchema) (elem : GoEntity)
    (field : String) (nv ov : GoVal) (hov : ov ≠ GoVal.vnil) :
    ∀ (idxs : List (List String)) (ob nb : GoBind),
      bindFind ob field = some ov → bindFind nb field = some nv →
      bindFind (idxs.foldl (fun ob_nb indexColumns =>
          if field ∈ indexColumns then addIndexColumns schema elem indexColumns ob_nb
          else ob_nb) (ob, nb)).1 field = some ov ∧
      bindFind (idxs.foldl (fun ob_nb indexColumns =>
          if field ∈ indexColumns then addIndexColumns schema elem indexColumns ob_nb
          else ob_nb) (ob, nb)).2 field = some nv := by
  intro idxs
  induction idxs with
  | nil => intro ob nb h1 h2; exact ⟨h1, h2⟩
  | cons idx rest ih =>
    intro ob nb h1 h2
    simp only [List.foldl_cons]
    by_cases hm : field ∈ idx
    · rw [if_pos hm]
      obtain ⟨g1, g2⟩ := addIndexColumns_field_slots schema elem field nv ov hov idx ob nb h1 h2
      have hsurj : addIndexColumns schema elem idx (ob, nb)
          = ((addIndexColumns schema elem idx (ob, nb)).1,
             (addIndexColumns schema elem idx (ob, nb)).2) := rfl
      rw [hsurj]
      exact ih _ _ g1 g2
    · rw [if_neg hm]
      exact ih ob nb h1 h2

theorem addUnique_other_keys (schema : EntitySchema) (elem : GoEntity)
    (field : String) :
    ∀ (idxs : List (List String)) (ob nb : GoBind),
      (∀ K, K ≠ field → bindFind nb K = bindFind ob K) →
      ∀ K, K ≠ field →
        bindFind (idxs.foldl (fun ob_nb indexColumns =>
            if field ∈ indexColumns then addIndexColumns schema elem indexColumns ob_nb
            else ob_nb) (ob, nb)).2 K
          = bindFind (idxs.foldl (fun ob_nb indexColumns =>
              if field ∈ indexColumns then addIndexColumns schema elem indexColumns ob_nb
              else ob_nb) (ob, nb)).1 K := by
  intro idxs
  induction idxs with
  | nil => intro ob nb h K hK; exact h K hK
  | cons idx rest ih =>
    intro ob nb h K hK
    simp only [List.foldl_cons]
    by_cases hm : field ∈ idx
    · rw [if_pos hm]
      have hsurj : addIndexColumns schema elem idx (ob, nb)
          = ((addIndexColumns schema elem idx (ob, nb)).1,
             (addIndexColumns schema elem idx (ob, nb)).2) := rfl
      rw [hsurj]
      refine ih _ _ ?_ K hK
      exact addIndexColumns_other_keys schema elem field idx ob nb h
    · rw [if_neg hm]
      exact ih ob nb h K hK

theorem addIndexColumns_slots_val (schema : EntitySchema) (elem : GoEntity)
    (field : String) (setter : FieldBindSetter)
    (hset : lookupBindSetter schema field = some setter) :
    ∀ (cols : List String) (ob nb : GoBind),
      bindFind ob field = some ((setter (elem.fields field)).1) →
      bindFind nb field = some ((setter (elem.fields field)).1) →
      bindFind (addIndexColumns schema elem cols (ob, nb)).1 field
          = some ((setter (elem.fields field)).1) ∧
      bindFind (addIndexColumns schema elem cols (ob, nb)).2 field
          = some ((setter (elem.fields field)).1) := by
  intro cols
  induction cols with
  | nil => intro ob nb h1 h2; exact ⟨h1, h2⟩
  | cons c rest ih =>
    intro ob nb h1 h2
    have hstep : addIndexColumns schema elem (c :: rest) (ob, nb)
        = addIndexColumns schema elem rest
          (if bindGet ob c = GoVal.vnil then
            match lookupBindSetter schema c with
            | some setter =>
              (bindPut ob c ((setter (elem.fields c)).1),
               bindPut nb c ((setter (elem.fields c)).1))
            | none => (ob, nb)
          else (ob, nb)) := by
      simp only [addIndexColumns, List.foldl_cons]
    by_cases hc : bindGet ob c = GoVal.vnil
    · by_cases hcf : c = field
      · subst hcf
        rw [hstep, if_pos hc]
        cases hs : lookupBindSetter schema c with
        | none => rw [hset] at hs; exact Option.noConfusion hs
        | some s' =>
          rw [hs] at hset
          injection hset with hss
          subst hss
          exact ih _ _ (bindFind_bindPut_self ob c _) (bindFind_bindPut_self nb c _)
      · have hcf' : field ≠ c := fun hcon => hcf (Eq.symm hcon)
        rw [hstep, if_pos hc]
        cases hs : lookupBindSetter schema c with
        | none => exact ih ob nb h1 h2
        | some s' =>
          exact ih _ _ (by rw [bindFind_bindPut_ne _ _ _ _ hcf']; exact h1)
            (by rw [bindFind_bindPut_ne _ _ _ _ hcf']; exact h2)
    · rw [hstep, if_neg hc]
      exact ih ob nb h1 h2

theorem addIndexColumns_nil_overwrite (schema : EntitySchema) (elem : GoEntity)
    (field : String) (setter : FieldBindSetter)
    (hset : lookupBindSetter schema field = some setter) :
    ∀ (cols : List String) (ob nb : GoBind), field ∈ cols →
      bindFind ob field = some GoVal.vnil →
      bindFind (addIndexColumns schema elem cols (ob, nb)).1 field
          = some ((setter (elem.fields field)).1) ∧
      bindFind (addIndexColumns schema elem cols (ob, nb)).2 field
          = some ((setter (elem.fields field)).1) := by
  intro cols
  induction cols with
  | nil => intro ob nb hmem _; exact absurd hmem (List.not_mem_nil field)
  | cons c rest ih =>
    intro ob nb hmem hob
    have hstep : addIndexColumns schema elem (c :: rest) (ob, nb)
        = addIndexColumns schema elem rest
          (if bindGet ob c = GoVal.vnil then
            match lookupBindSetter schema c with
            | some setter =>
              (bindPut ob c ((setter (elem.fields c)).1),
               bindPut nb c ((setter (elem.fields c)).1))
            | none => (ob, nb)
          else (ob, nb)) := by
      simp only [addIndexColumns, List.foldl_cons]
    by_cases hcf : c = field
    · subst hcf
      have hgc : bindGet ob c = GoVal.vnil := by
        rw [bindGet_eq, hob]; rfl
      rw [hstep, if_pos hgc]
      cases hs : lookupBindSetter schema c with
      | none => rw [hset] at hs; exact Option.noConfusion hs
      | some s' =>
        rw [hs] at hset
        injection hset with hss
        subst hss
        exact addIndexColumns_slots_val schema elem c s' hs rest _ _
          (bindFind_bindPut_self ob c _) (bindFind_bindPut_self nb c _)
    · have hmem' : field ∈ rest := by
        rcases List.mem_cons.mp hmem with hh | hh
        · exact absurd (Eq.symm hh) hcf
        · exact hh
      have hcf' : field ≠ c := fun hcon => hcf (Eq.symm hcon)
      rw [hstep]
      by_cases hgc : bindGet ob c = GoVal.vnil
      · rw [if_pos hgc]
        cases hs : lookupBindSetter schema c with
        | none => exact ih ob nb hmem' hob
        | some s' =>
          exact ih _ _ hmem' (by rw [bindFind_bindPut_ne _ _ _ _ hcf']; exact hob)
      · rw [if_neg hgc]
        exact ih ob nb hmem' hob

theorem addUnique_slots_val (schema : EntitySchema) (elem : GoEntity)
    (field : String) (setter : FieldBindSetter)
    (hset : lookupBindSetter schema field = some setter) :
    ∀ (idxs : List (List String)) (ob nb : GoBind),
      bindFind ob field = some ((setter (elem.fields field)).1) →
      bindFind nb field = some ((setter (elem.fields field)).1) →
      bindFind (idxs.foldl (fun ob_nb indexColumns =>
          if field ∈ indexColumns then addIndexColumns schema elem indexColumns ob_nb
          else ob_nb) (ob, nb)).1 field = some ((setter (elem.fields field)).1) ∧
      bindFind (idxs.foldl (fun ob_nb indexColumns =>
          if field ∈ indexColumns then addIndexColumns schema elem indexColumns ob_nb
          else ob_nb) (ob, nb)).2 field = some ((setter (elem.fields field)).1) := by
  intro idxs
  induction idxs with
  | nil => intro ob nb h1 h2; exact ⟨h1, h2⟩
  | cons idx rest ih =>
    intro ob nb h1 h2
    simp only [List.foldl_cons]
    by_cases hm : field ∈ idx
    · rw [if_pos hm]
      obtain ⟨g1, g2⟩ := addIndexColumns_slots_val schema elem field setter hset idx ob nb h1 h2
      have hsurj : addIndexColumns schema elem idx (ob, nb)
          = ((addIndexColumns schema elem idx (ob, nb)).1,
             (addIndexColumns schema elem idx (ob, nb)).2) := rfl
      rw [hsurj]
      exact ih _ _ g1 g2
    · rw [if_neg hm]
      exact ih ob nb h1 h2

theorem addUnique_nil_overwrite (schema : EntitySchema) (elem : GoEntity)
    (field : String) (setter : FieldBindSetter)
    (hset : lookupBindSetter schema field = some setter) :
    ∀ (idxs : List (List String)) (ob nb : GoBind),
      (∃ idx, idx ∈ idxs ∧ field ∈ idx) →
      bindFind ob field = some GoVal.vnil →
      bindFind (idxs.foldl (fun ob_nb indexColumns =>
          if field ∈ indexColumns then addIndexColumns schema elem indexColumns ob_nb
          else ob_nb) (ob, nb)).1 field = some ((setter (elem.fields field)).1) ∧
      bindFind (idxs.foldl (fun ob_nb indexColumns =>
          if field ∈ indexColumns then addIndexColumns schema elem indexColumns ob_nb
          else ob_nb) (ob, nb)).2 field = some ((setter (elem.fields field)).1) := by
  intro idxs
  induction idxs with
  | nil =>
    rintro ob nb ⟨idx, hin, _⟩ _
    exact absurd hin (List.not_mem_nil idx)
  | cons idx rest ih =>
    rintro ob nb ⟨i, hi, hfi⟩ hob
    simp only [List.foldl_cons]
    by_cases hm : field ∈ idx
    · rw [if_pos hm]
      obtain ⟨g1, g2⟩ :=
        addIndexColumns_nil_overwrite schema elem field setter hset idx ob nb hm hob
      have hsurj : addIndexColumns schema elem idx (ob, nb)
          = ((addIndexColumns schema elem idx (ob, nb)).1,
             (addIndexColumns schema elem idx (ob, nb)).2) := rfl
      rw [hsurj]
      exact addUnique_slots_val schema elem field setter hset rest _ _ g1 g2
    · rw [if_neg hm]
      rcases List.mem_cons.mp hi with hh | hh
      · subst hh; exact absurd hfi hm
      · exact ih ob nb ⟨i, hh, hfi⟩ hob

theorem addUnique_not_mem (schema : EntitySchema) (elem : GoEntity)
    (field : String) :
    ∀ (idxs : List (List String)) (ob nb : GoBind),
      (∀ idx ∈ idxs, field ∉ idx) →
      idxs.foldl (fun ob_nb indexColumns =>
          if field ∈ indexColumns then addIndexColumns schema elem indexColumns ob_nb
          else ob_nb) (ob, nb) = (ob, nb) := by
  intro idxs
  induction idxs with
  | nil => intro ob nb _; rfl
  | cons idx rest ih =>
    intro ob nb h
    simp only [List.foldl_cons]
    rw [if_neg (h idx (List.mem_cons_self idx rest))]
    exact ih ob nb (fun i hi => h i (List.mem_cons_of_mem idx hi))

/-! ## C5 — the newBind/oldBind difference invariant -/

/-- C5 counterexample: editing `Email` on an entity with unique index
`(Email, Age)` records the companion column `Age` with the SAME value in
both `newBind` and `oldBind` — `Age` is present in `newBind`, present in
`oldBind`, and the two values are equal, violating the claimed
invariant. -/
theorem editbind_unique_companion_counterexample :
    bindFind (trackedBindsAt
        (editEntityField schema5 [] entity5 "Email" (GoVal.vstr "b")).1 0 3).1 "Age"
      = some (GoVal.vuint 7) ∧
    bindFind (trackedBindsAt
        (editEntityField schema5 [] entity5 "Email" (GoVal.vstr "b")).1 0 3).2 "Age"
      = some (GoVal.vuint 7) := by
  constructor <;> decide

/-- C5 amended: after an `EditEntityField` call whose new value
canonicalises without error and which is not discarded as a no-op, the
binds obey, on the create path (untracked entity) and the merge path
(already tracked field edits) alike: when the old canonical value of the
edited field is non-nil — or the field belongs to no unique index — the
edited field is stored with the new canonical value in `newBind` and the
old canonical value in `oldBind` (differing whenever the old
canonicalisation succeeded); but when the old canonical value is nil AND
the field belongs to a unique index, `addUniqueIndexFieldsToBind`
overwrites BOTH slots of the edited field with the re-canonicalised
current field content, so they coincide.  On the create path every OTHER
key of `newBind` is a unique-index companion column stored with the SAME
value in `oldBind`. -/
theorem editEntityField_bind_invariant (schema : EntitySchema)
    (tracked : TrackedMap) (entity : GoEntity) (field : String) (value : GoVal)
    (setter : FieldBindSetter)
    (hset : lookupBindSetter schema field = some setter)
    (hnew : (setter value).2 = none)
    (hne : ¬ ((setter (schema.fieldGetters field entity)).2 = none ∧
              (setter (schema.fieldGetters field entity)).1 = (setter value).1)) :
    (mapFind2 tracked schema.index entity.id = none →
      (((setter (schema.fieldGetters field entity)).1 ≠ GoVal.vnil ∨
          (∀ idx ∈ schema.uniqueIndexes, field ∉ idx)) →
        bindFind (trackedBindsAt (editEntityField schema tracked entity field value).1
            schema.index entity.id).1 field = some (setter value).1 ∧
        bindFind (trackedBindsAt (editEntityField schema tracked entity field value).1
            schema.index entity.id).2 field
          = some (setter (schema.fieldGetters field entity)).1) ∧
      ((setter (schema.fieldGetters field entity)).1 = GoVal.vnil →
        (∃ idx, idx ∈ schema.uniqueIndexes ∧ field ∈ idx) →
        bindFind (trackedBindsAt (editEntityField schema tracked entity field value).1
            schema.index entity.id).1 field = some ((setter (entity.fields field)).1) ∧
        bindFind (trackedBindsAt (editEntityField schema tracked entity field value).1
            schema.index entity.id).2 field = some ((setter (entity.fields field)).1)) ∧
      ((setter (schema.fieldGetters field entity)).2 = none →
        (setter value).1 ≠ (setter (schema.fieldGetters field entity)).1) ∧
      (∀ K, K ≠ field →
        bindFind (trackedBindsAt (editEntityField schema tracked entity field value).1
            schema.index entity.id).1 K
          = bindFind (trackedBindsAt (editEntityField schema tracked entity field value).1
              schema.index entity.id).2 K)) ∧
    (∀ nb ob, mapFind2 tracked schema.index entity.id
          = some (EntityFlushEntry.editableFields nb ob) →
      ((setter (schema.fieldGetters field entity)).1 ≠ GoVal.vnil →
        bindFind (trackedBindsAt (editEntityField schema tracked entity field value).1
            schema.index entity.id).1 field = some (setter value).1 ∧
        bindFind (trackedBindsAt (editEntityField schema tracked entity field value).1
            schema.index entity.id).2 field
          = some (setter (schema.fieldGetters field entity)).1) ∧
      ((setter (schema.fieldGetters field entity)).1 = GoVal.vnil →
        (∃ idx, idx ∈ schema.uniqueIndexes ∧ field ∈ idx) →
        bindFind (trackedBindsAt (editEntityField schema tracked entity field value).1
            schema.index entity.id).1 field = some ((setter (entity.fields field)).1) ∧
        bindFind (trackedBindsAt (editEntityField schema tracked entity field value).1
            schema.index entity.id).2 field = some ((setter (entity.fields field)).1)) ∧
      ((setter (schema.fieldGetters field entity)).1 = GoVal.vnil →
        (∀ idx ∈ schema.uniqueIndexes, field ∉ idx) →
        bindFind (trackedBindsAt (editEntityField schema tracked entity field value).1
            schema.index entity.id).1 field = some (setter value).1 ∧
        bindFind (trackedBindsAt (editEntityField schema tracked entity field value).1
            schema.index entity.id).2 field
          = some (setter (schema.fieldGetters field entity)).1)) := by
  constructor
  · intro hmiss
    have hres : editEntityField schema tracked entity field value
        = (mapPut2 tracked schema.index entity.id
            (EntityFlushEntry.editableFields
              (addUniqueIndexFieldsToBind schema field
                [(field, (setter (schema.fieldGetters field entity)).1)]
                [(field, (setter value).1)] entity).2
              (addUniqueIndexFieldsToBind schema field
                [(field, (setter (schema.fieldGetters field entity)).1)]
                [(field, (setter value).1)] entity).1), none) := by
      rw [editEntityField, hset]
      simp only [hnew, if_neg hne, hmiss]
    have hbinds : trackedBindsAt (editEntityField schema tracked entity field value).1
        schema.index entity.id
      = ((addUniqueIndexFieldsToBind schema field
            [(field, (setter (schema.fieldGetters field entity)).1)]
            [(field, (setter value).1)] entity).2,
         (addUniqueIndexFieldsToBind schema field
            [(field, (setter (schema.fieldGetters field entity)).1)]
            [(field, (setter value).1)] entity).1) := by
      rw [hres]
      simp [trackedBindsAt, mapFind2_mapPut2, entryBinds]
    have hobs : bindFind [(field, (setter (schema.fieldGetters field entity)).1)] field
        = some (setter (schema.fieldGetters field entity)).1 := by
      simp [bindFind]
    have hnbs : bindFind [(field, (setter value).1)] field = some (setter value).1 := by
      simp [bindFind]
    refine ⟨?_, ?_, ?_, ?_⟩
    · rintro (hov | hnm)
      · obtain ⟨g1, g2⟩ := addUnique_field_slots schema entity field
          (setter value).1 (setter (schema.fieldGetters field entity)).1 hov
          schema.uniqueIndexes _ _ hobs hnbs
        rw [hbinds]
        exact ⟨g2, g1⟩
      · have hid : addUniqueIndexFieldsToBind schema field
            [(field, (setter (schema.fieldGetters field entity)).1)]
            [(field, (setter value).1)] entity
          = ([(field, (setter (schema.fieldGetters field entity)).1)],
             [(field, (setter value).1)]) :=
          addUnique_not_mem schema entity field schema.uniqueIndexes _ _ hnm
        rw [hbinds, hid]
        exact ⟨hnbs, hobs⟩
    · intro hov0 hex
      have hobs0 : bindFind [(field, (setter (schema.fieldGetters field entity)).1)] field
          = some GoVal.vnil := by
        rw [hobs, hov0]
      obtain ⟨g1, g2⟩ := addUnique_nil_overwrite schema entity field setter hset
        schema.uniqueIndexes _ _ hex hobs0
      rw [hbinds]
      exact ⟨g2, g1⟩
    · intro herr heq
      exact hne ⟨herr, heq.symm⟩
    · intro K hK
      rw [hbinds]
      exact addUnique_other_keys schema entity field schema.uniqueIndexes _ _
        (by
          intro K' hK'
          have hfk : ¬ field = K' := fun hc => hK' (Eq.symm hc)
          have hn : bindFind [(field, (setter value).1)] K' = none := by
            simp [bindFind, hfk]
          have ho : bindFind
              [(field, (setter (schema.fieldGetters field entity)).1)] K' = none := by
            simp [bindFind, hfk]
          rw [hn, ho]) K hK
  · intro nb ob hfound
    have hres : editEntityField schema tracked entity field value
        = (mapPut2 tracked schema.index entity.id
            (EntityFlushEntry.editableFields
              (addUniqueIndexFieldsToBind schema field
                (bindPut ob field (setter (schema.fieldGetters field entity)).1)
                (bindPut nb field (setter value).1) entity).2
              (addUniqueIndexFieldsToBind schema field
                (bindPut ob field (setter (schema.fieldGetters field entity)).1)
                (bindPut nb field (setter value).1) entity).1), none) := by
      rw [editEntityField, hset]
      simp only [hnew, if_neg hne, hfound]
    have hbinds : trackedBindsAt (editEntityField schema tracked entity field value).1
        schema.index entity.id
      = ((addUniqueIndexFieldsToBind schema field
            (bindPut ob field (setter (schema.fieldGetters field entity)).1)
            (bindPut nb field (setter value).1) entity).2,
         (addUniqueIndexFieldsToBind schema field
            (bindPut ob field (setter (schema.fieldGetters field entity)).1)
            (bindPut nb field (setter value).1) entity).1) := by
      rw [hres]
      simp [trackedBindsAt, mapFind2_mapPut2, entryBinds]
    refine ⟨?_, ?_, ?_⟩
    · intro hov
      obtain ⟨g1, g2⟩ := addUnique_field_slots schema entity field
        (setter value).1 (setter (schema.fieldGetters field entity)).1 hov
        schema.uniqueIndexes _ _
        (bindFind_bindPut_self ob field _) (bindFind_bindPut_self nb field _)
      rw [hbinds]
      exact ⟨g2, g1⟩
    · intro hov0 hex
      have hobs0 : bindFind
          (bindPut ob field (setter (schema.fieldGetters field entity)).1) field
          = some GoVal.vnil := by
        rw [bindFind_bindPut_self, hov0]
      obtain ⟨g1, g2⟩ := addUnique_nil_overwrite schema entity field setter hset
        schema.uniqueIndexes _ _ hex hobs0
      rw [hbinds]
      exact ⟨g2, g1⟩
    · intro hov0 hnm
      have hid : addUniqueIndexFieldsToBind schema field
          (bindPut ob field (setter (schema.fieldGetters field entity)).1)
          (bindPut nb field (setter value).1) entity
        = (bindPut ob field (setter (schema.fieldGetters field entity)).1,
           bindPut nb field (setter value).1) :=
        addUnique_not_mem schema entity field schema.uniqueIndexes _ _ hnm
      rw [hbinds, hid]
      exact ⟨bindFind_bindPut_self nb field _, bindFind_bindPut_self ob field _⟩

/-- Witness for the amended C5: editing `Email` from `"a"` to `"b"` on the
concrete schema stores `newBind[Email] = "b"` and `oldBind[Email] = "a"`;
editing `Email` on the entity whose current `Email` content canonicalises
to nil leaves BOTH slots overwritten with that nil content. -/
theorem editEntityField_bind_invariant_witness :
    (bindFind (trackedBindsAt
        (editEntityField schema5 [] entity5 "Email" (GoVal.vstr "b")).1 0 3).1 "Email"
      = some (GoVal.vstr "b") ∧
    bindFind (trackedBindsAt
        (editEntityField schema5 [] entity5 "Email" (GoVal.vstr "b")).1 0 3).2 "Email"
      = some (GoVal.vstr "a")) ∧
    (bindFind (trackedBindsAt
        (editEntityField schema5 [] entity5b "Email" (GoVal.vstr "b")).1 0 8).1 "Email"
      = some GoVal.vnil ∧
    bindFind (trackedBindsAt
        (editEntityField schema5 [] entity5b "Email" (GoVal.vstr "b")).1 0 8).2 "Email"
      = some GoVal.vnil) := by
  constructor
  · have h := ((editEntityField_bind_invariant schema5 [] entity5 "Email"
      (GoVal.vstr "b") idSetter rfl rfl (by decide)).1 rfl).1 (Or.inl (by decide))
    exact ⟨h.1, h.2⟩
  · have h := ((editEntityField_bind_invariant schema5 [] entity5b "Email"
      (GoVal.vstr "b") idSetter rfl rfl (by decide)).1 rfl).2.1 rfl
      ⟨["Email", "Age"], by decide, by decide⟩
    exact ⟨h.1, h.2⟩

/-! ## C6 — unsigned numeric bind setter error behaviour -/

/-- C6 counterexample: on an unsigned non-nullable column (`max = 255`),
the NEGATIVE input `-1/2` (a float strictly between −1 and 0) does not
fail at all: Go truncates it to `int64(0)` before the sign check and the
setter accepts it as `uint64(0)`. -/
theorem numberSetter_negative_float_counterexample :
    createNumberFieldBindSetter "Age" true false 0 255 (GoVal.vfloat negHalf)
      = (GoVal.vuint 0, none) ∧
    negHalf < 0 := by
  constructor <;> decide

/-- C6 amended, for the unsigned numeric bind setter: every input whose
`int64` truncation is negative (negative integers, negative pointed-to
integers, floats at or below −1) fails with `negative number N not
allowed`; a negative float strictly between −1 and 0 truncates to 0 and is
ACCEPTED as `uint64(0)`; a string that `strconv.ParseUint` rejects (any
negative decimal string) fails with `invalid number N`; every value above
the column's `max` fails with the max range error; and when
`nullable = false`, `nil` and nil typed pointers fail with
`nil is not allowed`. -/
theorem unsignedNumberSetter_errors (columnName : String) (nullable : Bool)
    (min : Int) (max : Nat) :
    (∀ n : Int, n < 0 →
      createNumberFieldBindSetter columnName true nullable min max (GoVal.vint n)
        = (GoVal.vnil, some (BindError.mk columnName
            ("negative number " ++ toString n ++ " not allowed")))) ∧
    (∀ q : Rat, goTruncInt64 q < 0 →
      createNumberFieldBindSetter columnName true nullable min max (GoVal.vfloat q)
        = (GoVal.vnil, some (BindError.mk columnName
            ("negative number " ++ goFormatD (GoVal.vfloat q) ++ " not allowed")))) ∧
    (∀ q : Rat, goTruncInt64 q = 0 →
      createNumberFieldBindSetter columnName true nullable min max (GoVal.vfloat q)
        = (GoVal.vuint 0, none)) ∧
    (∀ s : String, parseUint64 s = none →
      createNumberFieldBindSetter columnName true nullable min max (GoVal.vstr s)
        = (GoVal.vnil, some (BindError.mk columnName ("invalid number " ++ s)))) ∧
    (∀ n : Nat, max < n →
      createNumberFieldBindSetter columnName true nullable min max (GoVal.vuint n)
        = (GoVal.vnil, some (BindError.mk columnName
            ("value " ++ toString n ++ " exceeded max allowed value")))) ∧
    (nullable = false →
      createNumberFieldBindSetter columnName true nullable min max GoVal.vnil
          = (GoVal.vnil, some (BindError.mk columnName "nil is not allowed")) ∧
      createNumberFieldBindSetter columnName true nullable min max (GoVal.vuintPtr none)
          = (GoVal.vnil, some (BindError.mk columnName "nil is not allowed")) ∧
      createNumberFieldBindSetter columnName true nullable min max (GoVal.vintPtr none)
          = (GoVal.vnil, some (BindError.mk columnName "nil is not allowed"))) := by
  refine ⟨?_, ?_, ?_, ?_, ?_, ?_⟩
  · intro n hn
    simp [createNumberFieldBindSetter, numberSwitch, hn, goFormatD]
  · intro q hq
    simp [createNumberFieldBindSetter, numberSwitch, hq, goFormatD]
  · intro q hq
    simp [createNumberFieldBindSetter, numberSwitch, hq]
  · intro s hs
    simp [createNumberFieldBindSetter, numberSwitch, hs]
  · intro n hn
    simp [createNumberFieldBindSetter, numberSwitch, hn, goFormatD, Nat.not_lt.mpr]
  · intro hnul
    subst hnul
    refine ⟨?_, ?_, ?_⟩ <;> simp [createNumberFieldBindSetter, numberSwitch]

/-- Witness for the amended C6 on a `uint8`-shaped column (`max = 255`,
not nullable). -/
theorem unsignedNumberSetter_errors_witness :
    createNumberFieldBindSetter "Age" true false 0 255 (GoVal.vint (-5))
      = (GoVal.vnil, some (BindError.mk "Age"
          ("negative number " ++ toString (-5 : Int) ++ " not allowed"))) ∧
    createNumberFieldBindSetter "Age" true false 0 255 (GoVal.vfloat negThree)
      = (GoVal.vnil, some (BindError.mk "Age"
          ("negative number " ++ goFormatD (GoVal.vfloat negThree) ++ " not allowed"))) ∧
    createNumberFieldBindSetter "Age" true false 0 255 (GoVal.vstr "-5")
      = (GoVal.vnil, some (BindError.mk "Age" ("invalid number " ++ "-5"))) ∧
    createNumberFieldBindSetter "Age" true false 0 255 (GoVal.vuint 300)
      = (GoVal.vnil, some (BindError.mk "Age"
          ("value " ++ toString (300 : Nat) ++ " exceeded max allowed value"))) ∧
    createNumberFieldBindSetter "Age" true false 0 255 (GoVal.vuintPtr none)
      = (GoVal.vnil, some (BindError.mk "Age" "nil is not allowed")) := by
  refine ⟨?_, ?_, ?_, ?_, ?_⟩
  · exact (unsignedNumberSetter_errors "Age" false 0 255).1 (-5) (by decide)
  · exact (unsignedNumberSetter_errors "Age" false 0 255).2.1 negThree (by decide)
  · exact (unsignedNumberSetter_errors "Age" false 0 255).2.2.2.1 "-5" (by decide)
  · exact (unsignedNumberSetter_errors "Age" false 0 255).2.2.2.2.1 300 (by decide)
  · exact ((unsignedNumberSetter_errors "Age" false 0 255).2.2.2.2.2 rfl).2.1

/-! ## C10 — no-op detection and old-value error swallowing -/

/-- C10: when the bind setter canonicalises the supplied value and the
entity's current field content to equal values (both without error),
`editEntityField` returns `nil` and leaves the tracked-entities map
untouched; and when canonicalising the CURRENT content fails, the error is
swallowed: the call still records the pending change for an untracked
entity and returns `nil`. -/
theorem editEntityField_noop_and_swallow (schema : EntitySchema)
    (tracked : TrackedMap) (entity : GoEntity) (field : String) (value : GoVal)
    (setter : FieldBindSetter)
    (hset : lookupBindSetter schema field = some setter) :
    ((setter value).2 = none →
      (setter (schema.fieldGetters field entity)).2 = none →
      (setter (schema.fieldGetters field entity)).1 = (setter value).1 →
      editEntityField schema tracked entity field value = (tracked, none)) ∧
    (∀ e, (setter value).2 = none →
      (setter (schema.fieldGetters field entity)).2 = some e →
      mapFind2 tracked schema.index entity.id = none →
      editEntityField schema tracked entity field value
        = (mapPut2 tracked schema.index entity.id
            (EntityFlushEntry.editableFields
              (addUniqueIndexFieldsToBind schema field
                [(field, (setter (schema.fieldGetters field entity)).1)]
                [(field, (setter value).1)] entity).2
              (addUniqueIndexFieldsToBind schema field
                [(field, (setter (schema.fieldGetters field entity)).1)]
                [(field, (setter value).1)] entity).1), none)) := by
  constructor
  · intro hnew hoe hoeq
    rw [editEntityField, hset]
    simp only [hnew]
    rw [if_pos ⟨hoe, hoeq⟩]
  · intro e hnew hoe hmiss
    rw [editEntityField, hset]
    have hcond : ¬ ((setter (schema.fieldGetters field entity)).2 = none ∧
        (setter (schema.fieldGetters field entity)).1 = (setter value).1) := by
      intro hcon
      rw [hoe] at hcon
      exact Option.noConfusion hcon.1
    simp only [hnew, if_neg hcond, hmiss]

/-- Witness for C10: on the required `Name` column, re-setting the current
value `"x"` is a no-op returning `nil`; setting `"y"` on an entity whose
current content is `nil` (whose canonicalisation errors) still records the
edit and returns `nil`. -/
theorem editEntityField_noop_and_swallow_witness :
    editEntityField schema10 [] entityA "Name" (GoVal.vstr "x") = ([], none) ∧
    editEntityField schema10 [] entityB "Name" (GoVal.vstr "y")
      = (mapPut2 [] 1 5
          (EntityFlushEntry.editableFields
            (addUniqueIndexFieldsToBind schema10 "Name"
              [("Name", GoVal.vnil)] [("Name", GoVal.vstr "y")] entityB).2
            (addUniqueIndexFieldsToBind schema10 "Name"
              [("Name", GoVal.vnil)] [("Name", GoVal.vstr "y")] entityB).1), none) := by
  constructor
  · exact (editEntityField_noop_and_swallow schema10 [] entityA "Name"
      (GoVal.vstr "x") nnSetter rfl).1 rfl rfl rfl
  · exact (editEntityField_noop_and_swallow schema10 [] entityB "Name"
      (GoVal.vstr "y") nnSetter rfl).2 (BindError.mk "Name" "nil is not allowed")
      rfl rfl rfl

/-! ## Helper lemmas for the date/time round trip -/

theorem charDigit_digitChar : ∀ d, d < 10 → charDigit (digitChar d) = some d := by
  decide

theorem charDigit_lt (c : Char) (d : Nat) (h : charDigit c = some d) : d < 10 := by
  unfold charDigit at h
  split_ifs at h with hc
  injection h with h'
  omega

theorem parse2_pad2 (n : Nat) (h : n < 100) :
    parse2 (digitChar (n / 10)) (digitChar (n % 10)) = some n := by
  have h1 : n / 10 < 10 := by omega
  have h2 : n % 10 < 10 := by omega
  simp only [parse2, charDigit_digitChar _ h1, charDigit_digitChar _ h2]
  congr 1
  omega

theorem parse4_pad4 (n : Nat) (h : n < 10000) :
    parse4 (digitChar (n / 1000)) (digitChar (n / 100 % 10))
      (digitChar (n / 10 % 10)) (digitChar (n % 10)) = some n := by
  have h1 : n / 1000 < 10 := by omega
  have h2 : n / 100 % 10 < 10 := by omega
  have h3 : n / 10 % 10 < 10 := by omega
  have h4 : n % 10 < 10 := by omega
  simp only [parse4, charDigit_digitChar _ h1, charDigit_digitChar _ h2,
    charDigit_digitChar _ h3, charDigit_digitChar _ h4]
  congr 1
  omega

theorem parse4_le (c1 c2 c3 c4 : Char) (n : Nat) (h : parse4 c1 c2 c3 c4 = some n) :
    n ≤ 9999 := by
  unfold parse4 at h
  split at h
  · rename_i d1 d2 d3 d4 h1 h2 h3 h4
    injection h with h'
    have := charDigit_lt c1 d1 h1
    have := charDigit_lt c2 d2 h2
    have := charDigit_lt c3 d3 h3
    have := charDigit_lt c4 d4 h4
    omega
  · exact Option.noConfusion h

theorem daysInMonth_le (y m : Nat) : daysInMonth y m ≤ 31 := by
  unfold daysInMonth
  split_ifs <;> omega

theorem checkClock_valid (y mo d hr mi se : Nat) (t : GoTime)
    (hy : y ≤ 9999) (h : checkClock y mo d hr mi se = some t) :
    validGoTime t ∧ t = GoTime.mk y mo d hr mi se "UTC" := by
  unfold checkClock at h
  split_ifs at h with hc
  injection h with h'
  subst h'
  obtain ⟨h1, h2, h3, h4, h5, h6, h7⟩ := hc
  exact ⟨⟨hy, h1, h2, h3, h4, h5, h6, h7⟩, rfl⟩

theorem parseInLocationChars_valid (layout : TimeLayout) (cs : List Char)
    (t : GoTime) (h : parseInLocationChars layout cs = some t) :
    validGoTime t ∧ t.loc = "UTC" ∧ normalizeGoTime layout t = t := by
  unfold parseInLocationChars at h
  split at h
  · split_ifs at h with hsep
    simp only [Option.bind_eq_some] at h
    obtain ⟨y, hy, mo, hmo, d, hd, hck⟩ := h
    obtain ⟨hval, ht⟩ := checkClock_valid y mo d 0 0 0 t (parse4_le _ _ _ _ y hy) hck
    subst ht
    exact ⟨hval, rfl, rfl⟩
  · split_ifs at h with hsep
    simp only [Option.bind_eq_some] at h
    obtain ⟨y, hy, mo, hmo, d, hd, hr, hhr, mi, hmi, se, hse, hck⟩ := h
    obtain ⟨hval, ht⟩ := checkClock_valid y mo d hr mi se t (parse4_le _ _ _ _ y hy) hck
    subst ht
    exact ⟨hval, rfl, rfl⟩
  · exact Option.noConfusion h

theorem parse_format_roundtrip (layout : TimeLayout) (t : GoTime)
    (hv : validGoTime t) :
    parseInLocation layout (goTimeFormat layout t)
      = some (normalizeGoTime layout t) := by
  obtain ⟨hy, hm1, hm2, hd1, hd2, hh, hmi, hs⟩ := hv
  have hdm : t.day < 100 :=
    Nat.lt_of_le_of_lt hd2 (Nat.lt_of_le_of_lt (daysInMonth_le t.year t.month) (by omega))
  cases layout with
  | dateOnly =>
    show parseInLocationChars TimeLayout.dateOnly
        (String.mk (formatChars TimeLayout.dateOnly t)).data = _
    simp only [formatChars, pad4, pad2, List.cons_append, List.nil_append]
    simp only [parseInLocationChars, parse4_pad4 t.year (by omega),
      parse2_pad2 t.month (by omega), parse2_pad2 t.day hdm, Option.some_bind]
    simp [checkClock, normalizeGoTime, hm1, hm2, hd1, hd2]
  | dateTime =>
    show parseInLocationChars TimeLayout.dateTime
        (String.mk (formatChars TimeLayout.dateTime t)).data = _
    simp only [formatChars, pad4, pad2, List.cons_append, List.nil_append]
    simp only [parseInLocationChars, parse4_pad4 t.year (by omega),
      parse2_pad2 t.month (by omega), parse2_pad2 t.day hdm,
      parse2_pad2 t.hour (by omega), parse2_pad2 t.minute (by omega),
      parse2_pad2 t.second (by omega), Option.some_bind]
    simp [checkClock, normalizeGoTime, hm1, hm2, hd1, hd2, hh, hmi, hs]

/-! ## C7 — Date/DateTime bind setter: UTC-only inputs and the
format-then-reparse round trip -/

/-- C7: the Date/DateTime bind setter rejects every `time.Time` (and
`*time.Time`) whose location is not UTC with the UTC `BindError`; a UTC
time with real wall-clock components is accepted and canonicalised to its
layout rendering, and applying the field setter to that canonical string
stores exactly the normalised value (the UTC time formatted then
re-parsed: the date-only layout drops the time of day); a string the
layout parses is likewise accepted, and the parsed time is already
normal, so the round trip stores it unchanged. -/
theorem dateBindSetter_utc_roundtrip (columnName : String) (layout : TimeLayout)
    (nullable : Bool) :
    (∀ t : GoTime, t.loc ≠ "UTC" →
      createDateFieldBindSetter columnName layout nullable (GoVal.vtime t)
          = DateSetterResult.err (BindError.mk columnName "time must be in UTC location") ∧
      createDateFieldBindSetter columnName layout nullable (GoVal.vtimePtr (some t))
          = DateSetterResult.err (BindError.mk columnName "time must be in UTC location")) ∧
    (∀ t : GoTime, t.loc = "UTC" → validGoTime t →
      createDateFieldBindSetter columnName layout nullable (GoVal.vtime t)
          = DateSetterResult.ok (GoVal.vstr (goTimeFormat layout t)) ∧
      createTimeFieldSetter layout (goTimeFormat layout t) = normalizeGoTime layout t) ∧
    (∀ (s : String) (t : GoTime), parseInLocation layout s = some t →
      createDateFieldBindSetter columnName layout nullable (GoVal.vstr s)
          = DateSetterResult.ok (GoVal.vstr (goTimeFormat layout t)) ∧
      createTimeFieldSetter layout (goTimeFormat layout t) = t ∧
      normalizeGoTime layout t = t) := by
  refine ⟨?_, ?_, ?_⟩
  · intro t ht
    constructor <;> simp [createDateFieldBindSetter, ht]
  · intro t ht hv
    constructor
    · simp [createDateFieldBindSetter, ht]
    · unfold createTimeFieldSetter
      rw [parse_format_roundtrip layout t hv]
  · intro s t h
    obtain ⟨hval, hloc, hnorm⟩ := parseInLocationChars_valid layout s.data t h
    refine ⟨?_, ?_, hnorm⟩
    · simp [createDateFieldBindSetter, parseInLocation] at *
      simp [h]
    · unfold createTimeFieldSetter
      rw [parse_format_roundtrip layout t hval, hnorm]

/-- Witness for C7 at the concrete time 2022-02-03 04:05:06 in the
DateTime layout: a Warsaw-located copy is rejected, the UTC value is
accepted and round-trips to itself. -/
theorem dateBindSetter_utc_roundtrip_witness :
    createDateFieldBindSetter "Added" TimeLayout.dateTime false
        (GoVal.vtime (GoTime.mk 2022 2 3 4 5 6 "Europe/Warsaw"))
      = DateSetterResult.err (BindError.mk "Added" "time must be in UTC location") ∧
    createDateFieldBindSetter "Added" TimeLayout.dateTime false
        (GoVal.vtime (GoTime.mk 2022 2 3 4 5 6 "UTC"))
      = DateSetterResult.ok (GoVal.vstr
          (goTimeFormat TimeLayout.dateTime (GoTime.mk 2022 2 3 4 5 6 "UTC"))) ∧
    createTimeFieldSetter TimeLayout.dateTime
        (goTimeFormat TimeLayout.dateTime (GoTime.mk 2022 2 3 4 5 6 "UTC"))
      = GoTime.mk 2022 2 3 4 5 6 "UTC" := by
  have h := dateBindSetter_utc_roundtrip "Added" TimeLayout.dateTime false
  refine ⟨(h.1 (GoTime.mk 2022 2 3 4 5 6 "Europe/Warsaw") (by decide)).1,
    (h.2.1 (GoTime.mk 2022 2 3 4 5 6 "UTC") rfl (by decide)).1, ?_⟩
  exact (h.2.1 (GoTime.mk 2022 2 3 4 5 6 "UTC") rfl (by decide)).2

end Orm
